import Mathlib

/-!
Verification of the mracket mutation-testing engine (a Python program) against
its natural-language specification.  The Python modules are shallowly embedded
as executable Lean definitions:

* `src/mracket/reader/lexer.py`     → tokens, `makeToken`, `advancePosition`,
  `lexAll`/`tokenizeAll`.  Python's `re.match` is an external library and is
  modelled at its interface by a parameter of type `ReMatch` (a function from
  pattern name and input string to the matched prefix, if any); the only fact
  used about it is that `re.match` returns a prefix of its input.  A concrete
  instantiation `concreteReMatch` implements the sub-language of the actual
  regular expressions that the concrete programs appearing in this file
  exercise (whitespace, line comments, booleans, simple integers, reader
  directives, symbols and delimiters), and is proved to satisfy the interface.
* `src/mracket/reader/syntax.py` / `parser.py` / `stringify.py` → `RNode`,
  the recursive-descent functions `pStatement`, `pExpression`, …, `parseTokens`
  and `stringifyNode`.
* `src/mracket/mutation/…` → `genVisit`, `mutatorVisit`, `applierVisit`.
* `src/mracket/runner/…` → `evaluateMutants`, `reasonAttr`/`finishedCheck`,
  `runnerRun`.

Machine integers do not occur (Python integers are unbounded); positions are
modelled as `Int` exactly as the Python code uses them (`-1` marks dummy
positions).  Fallible code returns `Except`; recursive-descent parsing uses an
explicit fuel argument (running out of fuel is a distinguished error that the
theorems below never confuse with the Python errors).
-/

namespace Mracket

/-! ## Characters that the hygiene of this file prefers to spell numerically -/

def lbraceChar : Char := Char.ofNat 123

def rbraceChar : Char := Char.ofNat 125

def backquoteChar : Char := Char.ofNat 96

def squoteChar : Char := Char.ofNat 39

def dquoteChar : Char := Char.ofNat 34

def lbraceStr : String := String.mk [lbraceChar]

def rbraceStr : String := String.mk [rbraceChar]

def backquoteStr : String := String.mk [backquoteChar]

def squoteStr : String := String.mk [squoteChar]

/-! ## Tokens (lexer.py, class TokenType / class Token) -/

/-- The type of token (lexer.py `TokenType`). -/
inductive TokenType where
  | BOOLEAN
  | CHARACTER
  | COMMENT
  | DELIMITER
  | EOF
  | LPAREN
  | NUMBER
  | QUASIQUOTE
  | QUOTE
  | READER_DIRECTIVE
  | RPAREN
  | STRING
  | SYMBOL
  | UNQUOTE
  | UNQUOTE_SPLICING
  | WHITESPACE
  deriving DecidableEq, Repr

/-- A lexical token (lexer.py `Token`).  Python's dataclass stores 0-indexed
byte `offset` and 1-indexed `lineno`/`colno`; the sentinel value `-1` is used
for non-positional tokens, so positions are `Int`. -/
structure Token where
  type : TokenType
  offset : Int
  lineno : Int
  colno : Int
  source : String := ""
  deriving DecidableEq, Repr

/-- lexer.py `EOF_TOKEN`. -/
def EOF_TOKEN : Token := { type := .EOF, offset := -1, lineno := -1, colno := -1 }

/-- lexer.py `DUMMY_ELSE_SYMBOL_TOKEN`. -/
def DUMMY_ELSE_SYMBOL_TOKEN : Token :=
  { type := .SYMBOL, offset := -1, lineno := -1, colno := -1, source := "else" }

/-- lexer.py `DUMMY_LPAREN_TOKEN`. -/
def DUMMY_LPAREN_TOKEN : Token :=
  { type := .LPAREN, offset := -1, lineno := -1, colno := -1, source := "(" }

/-- lexer.py `DUMMY_RPAREN_TOKEN` (note: its `source` really is `"("` in the
Python source, line 199 of lexer.py). -/
def DUMMY_RPAREN_TOKEN : Token :=
  { type := .RPAREN, offset := -1, lineno := -1, colno := -1, source := "(" }

/-- lexer.py `DUMMY_TOKEN` is `cast(Token, None)`: a Python `None` smuggled in
place of a token.  It is modelled as a distinguished token value; none of the
code paths embedded here ever reads its fields. -/
def DUMMY_TOKEN : Token := { type := .EOF, offset := -2, lineno := -2, colno := -2 }

/-- Normalization of one Python slice index against a length `n`: negative
indices count from the end, out-of-range indices clamp. -/
def pyIndex (n i : Int) : Nat := (if i < 0 then max (i + n) 0 else min i n).toNat

/-- Python string slicing `s[a:b]`. -/
def pySlice (s : String) (a b : Int) : String :=
  String.mk ((s.data.drop (pyIndex s.length a)).take
    (pyIndex s.length b - pyIndex s.length a))

/-! ## The lexer (lexer.py, class Lexer)

The lexer's mutable state (`_truncated_source`, `_offset`, `_lineno`,
`_colno`) is threaded explicitly.  `re.match(PATTERN, s)` is modelled by a
`ReMatch` parameter; `LexPattern` names the compiled patterns of lexer.py. -/

/-- The compiled regular expressions of lexer.py, by name. -/
inductive LexPattern where
  | WHITESPACE
  | LINE_COMMENT
  | BOOLEAN
  | ABBREVIATED_BOOLEAN
  | CHARACTER
  | NUMBER
  | STRING
  | READER_DIRECTIVE
  | SYMBOL
  | DELIMITER
  deriving DecidableEq, Repr

/-- The interface of Python's `re.match`: given a pattern and an input string,
return the matched text (always a prefix of the input) or `none`. -/
def ReMatch : Type := LexPattern → String → Option String

/-- The fact this file uses about `re.match`: a match is a prefix of the
searched string. -/
def ReMatchSound (m : ReMatch) : Prop :=
  ∀ p s r, m p s = some r → ∃ rest, s = r ++ rest

/-- lexer.py `TOKEN_PATTERNS` (the ordered pattern list tried by
`_next_token`). -/
def TOKEN_PATTERNS : List (LexPattern × TokenType) :=
  [(.BOOLEAN, .BOOLEAN), (.ABBREVIATED_BOOLEAN, .BOOLEAN), (.CHARACTER, .CHARACTER),
   (.NUMBER, .NUMBER), (.STRING, .STRING), (.READER_DIRECTIVE, .READER_DIRECTIVE),
   (.SYMBOL, .SYMBOL), (.DELIMITER, .DELIMITER)]

/-- The lexer's mutable fields. -/
structure LexState where
  truncatedSource : String
  offset : Int
  lineno : Int
  colno : Int
  deriving DecidableEq, Repr

/-- The delimiter disambiguation of `Lexer._make_token` (lines 252-264 of
lexer.py): `(`,`[`,the left brace ↦ LPAREN; `)`,`]`,the right brace ↦ RPAREN;
backquote ↦ QUASIQUOTE; apostrophe ↦ QUOTE; `,` ↦ UNQUOTE; `,@` ↦
UNQUOTE_SPLICING. -/
def classifyDelimiter (src : String) : TokenType :=
  if src = "(" ∨ src = "[" ∨ src = lbraceStr then .LPAREN
  else if src = ")" ∨ src = "]" ∨ src = rbraceStr then .RPAREN
  else if src = backquoteStr then .QUASIQUOTE
  else if src = squoteStr then .QUOTE
  else if src = "," then .UNQUOTE
  else if src = ",@" then .UNQUOTE_SPLICING
  else .DELIMITER

/-- One character step of `Lexer._advance_position`: a newline bumps the line
and resets the column to 0, any other character bumps the column. -/
def advanceChar (lc : Int × Int) (c : Char) : Int × Int :=
  if c = '\n' then (lc.1 + 1, 0) else (lc.1, lc.2 + 1)

/-- `Lexer._advance_position` (lexer.py lines 271-278). -/
def advancePosition (st : LexState) (tokenSource : String) : LexState :=
  let lc := tokenSource.data.foldl advanceChar (st.lineno, st.colno)
  { st with offset := st.offset + tokenSource.length, lineno := lc.1, colno := lc.2 }

/-- Python slicing `s[size:]` used by `Lexer._truncate_source`. -/
def strDrop (s : String) (n : Nat) : String := String.mk (s.data.drop n)

/-- `Lexer._make_token` followed by the `_advance_position` and
`_truncate_source` calls it performs (lexer.py lines 250-269). -/
def makeToken (tokenType : TokenType) (tokenSource : String) (st : LexState) :
    Token × LexState :=
  let ty := if tokenType = .DELIMITER then classifyDelimiter tokenSource else tokenType
  let tok : Token :=
    { type := ty, offset := st.offset, lineno := st.lineno, colno := st.colno,
      source := tokenSource }
  let st' := advancePosition st tokenSource
  (tok, { st' with truncatedSource := strDrop st.truncatedSource tokenSource.length })

/-- The whitespace/line-comment skipping loop at the top of
`Lexer._next_token` (lexer.py lines 227-237).  The Python code creates (and
discards) WHITESPACE/COMMENT tokens through `_make_token`; they are collected
here so the offset invariant can be stated about them too. -/
def skipWsComments (m : ReMatch) : Nat → LexState → List Token × LexState
  | 0, st => ([], st)
  | fuel + 1, st =>
    match m .WHITESPACE st.truncatedSource with
    | some r =>
      let p := makeToken .WHITESPACE r st
      let q := skipWsComments m fuel p.2
      (p.1 :: q.1, q.2)
    | none =>
      match m .LINE_COMMENT st.truncatedSource with
      | some r =>
        let p := makeToken .COMMENT r st
        let q := skipWsComments m fuel p.2
        (p.1 :: q.1, q.2)
      | none => ([], st)

/-- The pattern-trying loop of `Lexer._next_token` (lexer.py lines 244-246). -/
def tryPatterns (m : ReMatch) : List (LexPattern × TokenType) → String →
    Option (TokenType × String)
  | [], _ => none
  | (p, ty) :: rest, s =>
    match m p s with
    | some r => some (ty, r)
    | none => tryPatterns m rest s

/-- `Lexer.tokenize`'s driving loop (lexer.py lines 222-224 together with
`_next_token`).  Returns every token the lexer constructs (including the
whitespace and comment tokens made inside `_next_token`, and the final
`EOF_TOKEN`), paired with `some offset` when tokenization stops at an
`UnrecognizedTokenError`. -/
def lexAll (m : ReMatch) : Nat → LexState → List Token × Option Int
  | 0, _ => ([], none)
  | fuel + 1, st =>
    let w := skipWsComments m fuel st
    if w.2.truncatedSource.data.isEmpty then (w.1 ++ [EOF_TOKEN], none)
    else
      match tryPatterns m TOKEN_PATTERNS w.2.truncatedSource with
      | some (ty, r) =>
        let p := makeToken ty r w.2
        let q := lexAll m fuel p.2
        (w.1 ++ p.1 :: q.1, q.2)
      | none => (w.1, some w.2.offset)

/-- The lexer state at the top of `Lexer.tokenize`. -/
def initLexState (s : String) : LexState :=
  { truncatedSource := s, offset := 0, lineno := 1, colno := 1 }

/-- All tokens the lexer constructs on `source` (whitespace and comments
included). -/
def tokenizeAll (m : ReMatch) (fuel : Nat) (source : String) : List Token × Option Int :=
  lexAll m fuel (initLexState source)

/-- The tokens `Lexer.tokenize` actually yields: the whitespace and comment
tokens are skipped inside `_next_token`. -/
def tokenize (m : ReMatch) (fuel : Nat) (source : String) : List Token :=
  (tokenizeAll m fuel source).1.filter
    (fun t => t.type ≠ .WHITESPACE ∧ t.type ≠ .COMMENT)

/-- The invariant claimed for every token (spec §4.1):
`source[token.offset .. token.offset + len(token.source)] == token.source`. -/
def sliceOk (s : String) (t : Token) : Bool :=
  pySlice s t.offset (t.offset + (t.source.length : Int)) = t.source

/-! ### The token-offset invariant (claim C2) -/

theorem sliceOk_iff (s : String) (t : Token) :
    sliceOk s t = true ↔
      pySlice s t.offset (t.offset + (t.source.length : Int)) = t.source := by
  simp [sliceOk]

theorem pyIndex_coe (n : Int) (k : Nat) (hk : (k : Int) ≤ n) : pyIndex n k = k := by
  unfold pyIndex
  omega

theorem pySlice_same (s : String) (a : Int) : pySlice s a a = "" := by
  simp [pySlice]

/-- The exact-slice lemma: if `s` decomposes as `pre ++ mid ++ rest` then the
Python slice of `s` at `[|pre|, |pre| + |mid|)` is `mid`. -/
theorem pySlice_pre (s : String) (pre mid rest : List Char)
    (h : s.data = pre ++ (mid ++ rest)) :
    pySlice s (pre.length : Int) ((pre.length : Int) + (mid.length : Int)) =
      String.mk mid := by
  have hn : (s.length : Int) =
      (pre.length : Int) + (mid.length : Int) + (rest.length : Int) := by
    show ((s.data.length : Int)) = _
    rw [h]
    push_cast [List.length_append]
    try ring
  have ha : pyIndex s.length (pre.length : Int) = pre.length := by
    apply pyIndex_coe
    omega
  have hb' : ((pre.length : Int) + (mid.length : Int)) = ((pre.length + mid.length : Nat) : Int) := by
    push_cast
    ring
  have hb : pyIndex s.length ((pre.length : Int) + (mid.length : Int)) =
      pre.length + mid.length := by
    rw [hb']
    apply pyIndex_coe
    omega
  unfold pySlice
  rw [ha, hb, h]
  have hd : (pre ++ (mid ++ rest)).drop pre.length = mid ++ rest :=
    List.drop_left pre (mid ++ rest)
  rw [hd]
  have ht : (mid ++ rest).take mid.length = mid := List.take_left mid rest
  rw [Nat.add_sub_cancel_left, ht]

/-- The lexer-state invariant tying the state to the original source: what has
been consumed is a prefix `pre` of `s`, the current offset is `|pre|`, and the
truncated source is the rest. -/
def LexInv (s : String) (st : LexState) : Prop :=
  ∃ pre : List Char,
    s.data = pre ++ st.truncatedSource.data ∧ st.offset = (pre.length : Int)

theorem lexInv_init (s : String) : LexInv s (initLexState s) :=
  ⟨[], by simp [initLexState], by simp [initLexState]⟩

theorem sliceOk_eof (s : String) : sliceOk s EOF_TOKEN = true := by
  rw [sliceOk_iff]
  show pySlice s (-1) (-1 + ((0 : Nat) : Int)) = ""
  rw [show (-1 + ((0 : Nat) : Int)) = -1 by ring]
  exact pySlice_same s (-1)

/-- `Lexer._make_token` keeps the invariant and produces a token satisfying the
offset/source property, provided the matched text is a prefix of the truncated
source. -/
theorem makeToken_spec (s : String) (ty : TokenType) (r : String) (st : LexState)
    (hinv : LexInv s st) (hpre : ∃ rest, st.truncatedSource = r ++ rest) :
    sliceOk s (makeToken ty r st).1 = true ∧ LexInv s (makeToken ty r st).2 := by
  obtain ⟨pre, hdata, hoff⟩ := hinv
  obtain ⟨rest, hrest⟩ := hpre
  have htr : st.truncatedSource.data = r.data ++ rest.data := by
    rw [hrest]
    exact String.data_append r rest
  have hsplit : s.data = pre ++ (r.data ++ rest.data) := by
    rw [hdata, htr]
  constructor
  · rw [sliceOk_iff]
    show pySlice s st.offset (st.offset + ((r.length : Nat) : Int)) = r
    rw [hoff]
    have := pySlice_pre s pre r.data rest.data hsplit
    simpa using this
  · refine ⟨pre ++ r.data, ?_, ?_⟩
    · show s.data = (pre ++ r.data) ++ (strDrop st.truncatedSource r.length).data
      have : (strDrop st.truncatedSource r.length).data = rest.data := by
        show (st.truncatedSource.data.drop r.length) = rest.data
        rw [htr]
        exact List.drop_left r.data rest.data
      rw [this, hsplit, List.append_assoc]
    · show st.offset + ((r.length : Nat) : Int) = _
      rw [hoff]
      push_cast [List.length_append]
      rfl

theorem skipWsComments_spec (m : ReMatch) (hm : ReMatchSound m) :
    ∀ (fuel : Nat) (st : LexState) (s : String), LexInv s st →
      (∀ t ∈ (skipWsComments m fuel st).1, sliceOk s t = true) ∧
        LexInv s (skipWsComments m fuel st).2 := by
  intro fuel
  induction fuel with
  | zero =>
    intro st s hinv
    exact ⟨by intro t ht; simp [skipWsComments] at ht, hinv⟩
  | succ fuel ih =>
    intro st s hinv
    unfold skipWsComments
    cases hw : m .WHITESPACE st.truncatedSource with
    | some r =>
      obtain ⟨rest, hrest⟩ := hm _ _ _ hw
      have hmk := makeToken_spec s .WHITESPACE r st hinv ⟨rest, hrest⟩
      have hrec := ih _ s hmk.2
      simp only []
      refine ⟨?_, hrec.2⟩
      intro t ht
      rcases List.mem_cons.mp ht with h | h
      · rw [h]; exact hmk.1
      · exact hrec.1 t h
    | none =>
      cases hc : m .LINE_COMMENT st.truncatedSource with
      | some r =>
        obtain ⟨rest, hrest⟩ := hm _ _ _ hc
        have hmk := makeToken_spec s .COMMENT r st hinv ⟨rest, hrest⟩
        have hrec := ih _ s hmk.2
        simp only []
        refine ⟨?_, hrec.2⟩
        intro t ht
        rcases List.mem_cons.mp ht with h | h
        · rw [h]; exact hmk.1
        · exact hrec.1 t h
      | none =>
        exact ⟨by intro t ht; simp at ht, hinv⟩

theorem tryPatterns_sound (m : ReMatch) :
    ∀ (pats : List (LexPattern × TokenType)) (s : String) (ty : TokenType)
      (r : String), tryPatterns m pats s = some (ty, r) → ∃ p, m p s = some r := by
  intro pats
  induction pats with
  | nil => intro s ty r h; simp [tryPatterns] at h
  | cons hd tl ih =>
    intro s ty r h
    unfold tryPatterns at h
    cases hmm : m hd.1 s with
    | some r' =>
      rw [hmm] at h
      simp at h
      exact ⟨hd.1, by rw [hmm, h.2]⟩
    | none =>
      rw [hmm] at h
      exact ih s ty r h

theorem lexAll_spec (m : ReMatch) (hm : ReMatchSound m) :
    ∀ (fuel : Nat) (st : LexState) (s : String), LexInv s st →
      ∀ t ∈ (lexAll m fuel st).1, sliceOk s t = true := by
  intro fuel
  induction fuel with
  | zero =>
    intro st s _ t ht
    simp [lexAll] at ht
  | succ fuel ih =>
    intro st s hinv t ht
    unfold lexAll at ht
    have hskip := skipWsComments_spec m hm fuel st s hinv
    by_cases hemp : (skipWsComments m fuel st).2.truncatedSource.data.isEmpty
    · rw [if_pos hemp] at ht
      rcases List.mem_append.mp ht with h | h
      · exact hskip.1 t h
      · rw [List.mem_singleton.mp h]
        exact sliceOk_eof s
    · rw [if_neg hemp] at ht
      cases htry : tryPatterns m TOKEN_PATTERNS (skipWsComments m fuel st).2.truncatedSource with
      | some pr =>
        rw [htry] at ht
        obtain ⟨p, hp⟩ := tryPatterns_sound m TOKEN_PATTERNS _ pr.1 pr.2 (by
          rw [htry])
        obtain ⟨rest, hrest⟩ := hm _ _ _ hp
        have hmk := makeToken_spec s pr.1 pr.2 _ hskip.2 ⟨rest, hrest⟩
        simp only [] at ht
        rcases List.mem_append.mp ht with h | h
        · exact hskip.1 t h
        · rcases List.mem_cons.mp h with h' | h'
          · rw [h']; exact hmk.1
          · exact ih _ s hmk.2 t h'
      | none =>
        rw [htry] at ht
        exact hskip.1 t ht

/-- Claim C2: for every source string `s` and every token `t` produced while
tokenizing `s` — whitespace and comment tokens included — the substring of `s`
starting at `t.offset` of length `len(t.source)` equals `t.source`.  Stated
for every matcher satisfying the `re.match` interface (a match is a prefix of
its input) and every fuel bound. -/
theorem C2_token_source_offset_invariant (m : ReMatch) (hm : ReMatchSound m)
    (fuel : Nat) (s : String) :
    ((tokenizeAll m fuel s).1).all (sliceOk s) = true := by
  rw [List.all_eq_true]
  intro t ht
  exact lexAll_spec m hm fuel (initLexState s) s (lexInv_init s) t ht

/-! ### A concrete matcher

`concreteReMatch` realizes the `re.match` interface for the fragment of the
lexer's regular expressions exercised by the concrete programs in this file:
whitespace runs, `;` line comments, `#true`/`#false`/`#[TtFf]` booleans,
unsigned decimal integers followed by a delimiter (the lookahead of the
`NUMBER` pattern), `#lang`/`#reader` directives running to end of line,
symbols (without the `|...|` and backslash escape forms), and delimiters.
The `CHARACTER` and `STRING` patterns never fire (the concrete inputs used
below contain neither character literals nor strings, on which the genuine
patterns would not fire either). -/

/-- Python's `\s` class. -/
def isWsCharPy (c : Char) : Bool :=
  c = ' ' ∨ c = '\t' ∨ c = '\n' ∨ c = '\r' ∨ c = Char.ofNat 11 ∨ c = Char.ofNat 12

/-- The characters excluded from `SYMBOL_CHARACTER` besides whitespace. -/
def reservedSymbolChars : List Char :=
  ['(', ')', '[', ']', lbraceChar, rbraceChar, dquoteChar, ',', squoteChar,
   backquoteChar, ';', '|', '\\']

/-- `LEADING_SYMBOL_CHARACTER` of lexer.py (also excludes `#`). -/
def isLeadingSymbolChar (c : Char) : Bool :=
  ¬(c ∈ reservedSymbolChars ∨ c = '#' ∨ isWsCharPy c)

/-- `SYMBOL_CHARACTER` of lexer.py. -/
def isSymbolChar (c : Char) : Bool :=
  ¬(c ∈ reservedSymbolChars ∨ isWsCharPy c)

/-- The delimiter-or-end lookahead `(?=$|[()[\]{}'`,"\s])` of the `NUMBER`
pattern. -/
def isNumberBoundary (c : Char) : Bool :=
  c = '(' ∨ c = ')' ∨ c = '[' ∨ c = ']' ∨ c = lbraceChar ∨ c = rbraceChar ∨
    c = squoteChar ∨ c = backquoteChar ∨ c = ',' ∨ c = dquoteChar ∨ isWsCharPy c

/-- Python `str.startswith`. -/
def strStarts (s p : String) : Bool := p.data.isPrefixOf s.data

/-- A single-character delimiter of the `DELIMITER` pattern. -/
def singleDelim (c : Char) : Option String :=
  if c = '(' ∨ c = ')' ∨ c = '[' ∨ c = ']' ∨ c = lbraceChar ∨ c = rbraceChar ∨
      c = squoteChar ∨ c = backquoteChar ∨ c = ',' then
    some (String.mk [c])
  else none

/-- Concrete `WHITESPACE` matcher. -/
def wsMatch (s : String) : Option String :=
  let r := s.data.takeWhile isWsCharPy
  if r.isEmpty then none else some (String.mk r)

/-- Concrete `LINE_COMMENT` matcher. -/
def commentMatch (s : String) : Option String :=
  match s.data with
  | c :: _ => if c = ';' then some (String.mk (s.data.takeWhile (· ≠ '\n'))) else none
  | [] => none

/-- Concrete `BOOLEAN` matcher. -/
def booleanMatch (s : String) : Option String :=
  if strStarts s "#true" then some "#true"
  else if strStarts s "#false" then some "#false"
  else none

/-- Concrete `ABBREVIATED_BOOLEAN` matcher. -/
def abbrevBooleanMatch (s : String) : Option String :=
  match s.data with
  | '#' :: c :: _ =>
    if c = 'T' ∨ c = 't' ∨ c = 'F' ∨ c = 'f' then some (String.mk ['#', c]) else none
  | _ => none

/-- Concrete `NUMBER` matcher. -/
def numberMatch (s : String) : Option String :=
  let ds := s.data.takeWhile Char.isDigit
  if ds.isEmpty then none
  else
    match s.data.drop ds.length with
    | [] => some (String.mk ds)
    | c :: _ => if isNumberBoundary c then some (String.mk ds) else none

/-- Concrete `READER_DIRECTIVE` matcher. -/
def directiveMatch (s : String) : Option String :=
  if strStarts s "#lang" ∨ strStarts s "#reader" then
    some (String.mk (s.data.takeWhile (· ≠ '\n')))
  else none

/-- Concrete `SYMBOL` matcher. -/
def symbolMatch (s : String) : Option String :=
  match s.data with
  | [] => none
  | c :: rest =>
    if c = '\\' ∨ c = '|' then none
    else if isLeadingSymbolChar c then
      some (String.mk (c :: rest.takeWhile isSymbolChar))
    else none

/-- Concrete `DELIMITER` matcher. -/
def delimiterMatch (s : String) : Option String :=
  match s.data with
  | ',' :: c2 :: _ => if c2 = '@' then some ",@" else some (String.mk [','])
  | c :: _ => singleDelim c
  | [] => none

/-- The concrete matcher. -/
def concreteReMatch : ReMatch := fun pat =>
  match pat with
  | .WHITESPACE => wsMatch
  | .LINE_COMMENT => commentMatch
  | .BOOLEAN => booleanMatch
  | .ABBREVIATED_BOOLEAN => abbrevBooleanMatch
  | .CHARACTER => fun _ => none
  | .NUMBER => numberMatch
  | .STRING => fun _ => none
  | .READER_DIRECTIVE => directiveMatch
  | .SYMBOL => symbolMatch
  | .DELIMITER => delimiterMatch

theorem mk_takeWhile_pre (s : String) (p : Char → Bool) :
    ∃ rest, s = String.mk (s.data.takeWhile p) ++ rest := by
  refine ⟨String.mk (s.data.dropWhile p), ?_⟩
  cases s with
  | mk d =>
    apply congrArg String.mk
    exact (List.takeWhile_append_dropWhile (p := p) (l := d)).symm

theorem mk_cons_pre (s : String) (pre suf : List Char) (h : s.data = pre ++ suf) :
    ∃ rest, s = String.mk pre ++ rest := by
  refine ⟨String.mk suf, ?_⟩
  cases s with
  | mk d =>
    apply congrArg String.mk
    simpa using h

theorem strStarts_pre (s p : String) (h : strStarts s p = true) :
    ∃ rest, s = p ++ rest := by
  obtain ⟨t, ht⟩ := List.isPrefixOf_iff_prefix.mp h
  refine ⟨String.mk t, ?_⟩
  cases s with
  | mk d =>
    cases p with
    | mk pd =>
      apply congrArg String.mk
      simpa using ht.symm

theorem wsMatch_pre (s r : String) (h : wsMatch s = some r) : ∃ rest, s = r ++ rest := by
  unfold wsMatch at h
  simp only [] at h
  split at h
  · exact absurd h (by simp)
  · obtain ⟨rest, hrest⟩ := mk_takeWhile_pre s isWsCharPy
    exact ⟨rest, by rw [← Option.some_inj.mp h]; exact hrest⟩

theorem commentMatch_pre (s r : String) (h : commentMatch s = some r) :
    ∃ rest, s = r ++ rest := by
  unfold commentMatch at h
  split at h
  · split at h
    · obtain ⟨q, hq⟩ := mk_takeWhile_pre s (· ≠ '\n')
      exact ⟨q, by rw [← Option.some_inj.mp h]; exact hq⟩
    · exact absurd h (by simp)
  · exact absurd h (by simp)

theorem booleanMatch_pre (s r : String) (h : booleanMatch s = some r) :
    ∃ rest, s = r ++ rest := by
  unfold booleanMatch at h
  split at h
  · rename_i h1
    obtain ⟨q, hq⟩ := strStarts_pre s "#true" h1
    exact ⟨q, by rw [← Option.some_inj.mp h]; exact hq⟩
  · split at h
    · rename_i h2
      obtain ⟨q, hq⟩ := strStarts_pre s "#false" h2
      exact ⟨q, by rw [← Option.some_inj.mp h]; exact hq⟩
    · exact absurd h (by simp)

theorem abbrevBooleanMatch_pre (s r : String) (h : abbrevBooleanMatch s = some r) :
    ∃ rest, s = r ++ rest := by
  unfold abbrevBooleanMatch at h
  split at h
  · rename_i c tl heq
    split at h
    · have hx := Option.some_inj.mp h
      obtain ⟨q, hq⟩ := mk_cons_pre s ['#', c] tl (by rw [heq]; rfl)
      exact ⟨q, by rw [← hx]; exact hq⟩
    · exact absurd h (by simp)
  · exact absurd h (by simp)

theorem numberMatch_pre (s r : String) (h : numberMatch s = some r) :
    ∃ rest, s = r ++ rest := by
  unfold numberMatch at h
  simp only [] at h
  obtain ⟨q, hq⟩ := mk_takeWhile_pre s Char.isDigit
  split at h
  · exact absurd h (by simp)
  · split at h
    · exact ⟨q, by rw [← Option.some_inj.mp h]; exact hq⟩
    · split at h
      · exact ⟨q, by rw [← Option.some_inj.mp h]; exact hq⟩
      · exact absurd h (by simp)

theorem directiveMatch_pre (s r : String) (h : directiveMatch s = some r) :
    ∃ rest, s = r ++ rest := by
  unfold directiveMatch at h
  split at h
  · obtain ⟨q, hq⟩ := mk_takeWhile_pre s (· ≠ '\n')
    exact ⟨q, by rw [← Option.some_inj.mp h]; exact hq⟩
  · exact absurd h (by simp)

theorem symbolMatch_pre (s r : String) (h : symbolMatch s = some r) :
    ∃ rest, s = r ++ rest := by
  unfold symbolMatch at h
  split at h
  · exact absurd h (by simp)
  · rename_i c rest heq
    split at h
    · exact absurd h (by simp)
    · split at h
      · have hx := Option.some_inj.mp h
        have hsplit : s.data = (c :: rest.takeWhile isSymbolChar) ++ rest.dropWhile isSymbolChar := by
          rw [heq]
          simp [List.takeWhile_append_dropWhile]
        obtain ⟨q, hq⟩ := mk_cons_pre s _ _ hsplit
        exact ⟨q, by rw [← hx]; exact hq⟩
      · exact absurd h (by simp)

theorem singleDelim_pre (s r : String) (c : Char) (tl : List Char)
    (hd : s.data = c :: tl) (h : singleDelim c = some r) : ∃ rest, s = r ++ rest := by
  unfold singleDelim at h
  split at h
  · have := Option.some_inj.mp h
    obtain ⟨q, hq⟩ := mk_cons_pre s [c] tl (by rw [hd]; rfl)
    exact ⟨q, by rw [← this]; exact hq⟩
  · exact absurd h (by simp)

theorem delimiterMatch_pre (s r : String) (h : delimiterMatch s = some r) :
    ∃ rest, s = r ++ rest := by
  unfold delimiterMatch at h
  split at h
  · rename_i c2 tl2 heq
    split at h
    · rename_i hc2
      subst hc2
      have hx := Option.some_inj.mp h
      obtain ⟨q, hq⟩ := mk_cons_pre s [',', '@'] tl2 (by rw [heq]; rfl)
      refine ⟨q, ?_⟩
      rw [← hx]
      exact hq
    · have hx := Option.some_inj.mp h
      obtain ⟨q, hq⟩ := mk_cons_pre s [','] (c2 :: tl2) (by rw [heq]; rfl)
      exact ⟨q, by rw [← hx]; exact hq⟩
  · rename_i c tl hneg heq
    exact singleDelim_pre s r c tl heq h
  · exact absurd h (by simp)

theorem concreteReMatch_sound : ReMatchSound concreteReMatch := by
  intro p s r h
  cases p with
  | WHITESPACE => exact wsMatch_pre s r h
  | LINE_COMMENT => exact commentMatch_pre s r h
  | BOOLEAN => exact booleanMatch_pre s r h
  | ABBREVIATED_BOOLEAN => exact abbrevBooleanMatch_pre s r h
  | CHARACTER => exact absurd h (by simp [concreteReMatch])
  | NUMBER => exact numberMatch_pre s r h
  | STRING => exact absurd h (by simp [concreteReMatch])
  | READER_DIRECTIVE => exact directiveMatch_pre s r h
  | SYMBOL => exact symbolMatch_pre s r h
  | DELIMITER => exact delimiterMatch_pre s r h

/-- Witness for C2: the parametric theorem applied to the concrete matcher and
a concrete source program. -/
theorem C2_token_source_offset_invariant_witness :
    ((tokenizeAll concreteReMatch 100 "#lang racket\n(+ 1 (+ 2 3))").1).all
      (sliceOk "#lang racket\n(+ 1 (+ 2 3))") = true :=
  C2_token_source_offset_invariant concreteReMatch concreteReMatch_sound 100
    "#lang racket\n(+ 1 (+ 2 3))"

/-! ## The abstract syntax tree (syntax.py)

The node classes are embedded as one mutual sum.  Note on fidelity: the
snapshot's syntax.py lags behind the rest of the package — it contains no
`RacketLetNode` and its `RacketTestCaseNode` carries no `typ`/`expressions` —
yet parser.py constructs both (`syntax.RacketLetNode(... typ=..., ...)`,
`syntax.RacketTestCaseNode(... typ=..., expressions=...)`) and stringify.py,
mutator.py and applier.py consume them (`visit_let_node`,
`visit_test_case_node`).  The two variants are therefore modelled from those
constructor calls and uses (which agree with spec §3). -/

/-- `RacketLetNode.Type`. -/
inductive LetType where
  | LET
  | LET_STAR
  | LETREC
  deriving DecidableEq, Repr

/-- The `.value` of a `RacketLetNode.Type` member. -/
def LetType.value : LetType → String
  | .LET => "let"
  | .LET_STAR => "let*"
  | .LETREC => "letrec"

/-- Python's `RacketLetNode.Type(source)` enum call: `none` models the
`ValueError` raised on an unknown value. -/
def letTypeFromSource (s : String) : Option LetType :=
  if s = "let" then some .LET
  else if s = "let*" then some .LET_STAR
  else if s = "letrec" then some .LETREC
  else none

/-- `RacketTestCaseNode.Type`. -/
inductive TestCaseType where
  | CHECK_EXPECT
  | CHECK_RANDOM
  | CHECK_WITHIN
  | CHECK_MEMBER_OF
  | CHECK_RANGE
  | CHECK_SATISFIED
  | CHECK_ERROR
  deriving DecidableEq, Repr

/-- The `.value` of a `RacketTestCaseNode.Type` member. -/
def TestCaseType.value : TestCaseType → String
  | .CHECK_EXPECT => "check-expect"
  | .CHECK_RANDOM => "check-random"
  | .CHECK_WITHIN => "check-within"
  | .CHECK_MEMBER_OF => "check-member-of"
  | .CHECK_RANGE => "check-range"
  | .CHECK_SATISFIED => "check-satisfied"
  | .CHECK_ERROR => "check-error"

/-- Python's `RacketTestCaseNode.Type(source)` enum call. -/
def testCaseTypeFromSource (s : String) : Option TestCaseType :=
  if s = "check-expect" then some .CHECK_EXPECT
  else if s = "check-random" then some .CHECK_RANDOM
  else if s = "check-within" then some .CHECK_WITHIN
  else if s = "check-member-of" then some .CHECK_MEMBER_OF
  else if s = "check-range" then some .CHECK_RANGE
  else if s = "check-satisfied" then some .CHECK_SATISFIED
  else if s = "check-error" then some .CHECK_ERROR
  else none

mutual
/-- A Racket AST node (`RacketASTNode` and its concrete subclasses). -/
inductive RNode where
  | program (token : Token) (readerDirective : RNode) (statements : NodeList)
  | readerDirective (token : Token)
  | nameDefinition (lparen rparen : Token) (defName : RNode) (expression : RNode)
  | structureDefinition (lparen rparen : Token) (defName : RNode) (fields : NodeList)
  | literal (token : Token)
  | name (token : Token)
  | cond (lparen rparen : Token) (branches : PairList)
  | lambda (lparen rparen : Token) (vars : NodeList) (expression : RNode)
  | letNode (lparen rparen : Token) (typ : LetType) (localDefinitions : PairList)
      (expression : RNode)
  | localNode (lparen rparen : Token) (definitions : NodeList) (expression : RNode)
  | procedureApplication (lparen rparen : Token) (expressions : NodeList)
  | testCase (lparen rparen : Token) (typ : TestCaseType) (expressions : NodeList)
  | libraryRequire (lparen rparen : Token) (library : RNode)
  deriving DecidableEq, Repr
/-- A Python `list` of AST nodes. -/
inductive NodeList where
  | nil
  | cons (head : RNode) (tail : NodeList)
  deriving DecidableEq, Repr
/-- A Python `list` of pairs of AST nodes (cond branches, let bindings). -/
inductive PairList where
  | nil
  | cons (fst snd : RNode) (tail : PairList)
  deriving DecidableEq, Repr
end

def NodeList.toList : NodeList → List RNode
  | .nil => []
  | .cons n rest => n :: rest.toList

def NodeList.ofList : List RNode → NodeList
  | [] => .nil
  | n :: rest => .cons n (NodeList.ofList rest)

def PairList.toList : PairList → List (RNode × RNode)
  | .nil => []
  | .cons a b rest => (a, b) :: rest.toList

def PairList.ofList : List (RNode × RNode) → PairList
  | [] => .nil
  | (a, b) :: rest => .cons a b (PairList.ofList rest)

/-- The `.token` attribute every node carries (each subclass passes its primary
token — the `lparen` for parenthesized forms — to `RacketASTNode.__init__`). -/
def RNode.token : RNode → Token
  | .program t _ _ => t
  | .readerDirective t => t
  | .nameDefinition lp _ _ _ => lp
  | .structureDefinition lp _ _ _ => lp
  | .literal t => t
  | .name t => t
  | .cond lp _ _ => lp
  | .lambda lp _ _ _ => lp
  | .letNode lp _ _ _ _ => lp
  | .localNode lp _ _ _ => lp
  | .procedureApplication lp _ _ => lp
  | .testCase lp _ _ _ => lp
  | .libraryRequire lp _ _ => lp

/-! ## The stringifier (stringify.py)

`visit_structure_definition_node` (stringify.py line 20) interpolates
`node.name` — the `RacketNameNode` object itself — into the f-string, not its
source text, so Python renders the object's default `repr`,
`<mracket.reader.syntax.RacketNameNode object at 0x…>`.  The unknowable heap
address is a parameter `addr` of the stringifier. -/

/-- The Python class name of a node (used by the default object repr). -/
def pyClassName : RNode → String
  | .program .. => "RacketProgramNode"
  | .readerDirective .. => "RacketReaderDirectiveNode"
  | .nameDefinition .. => "RacketNameDefinitionNode"
  | .structureDefinition .. => "RacketStructureDefinitionNode"
  | .literal .. => "RacketLiteralNode"
  | .name .. => "RacketNameNode"
  | .cond .. => "RacketCondNode"
  | .lambda .. => "RacketLambdaNode"
  | .letNode .. => "RacketLetNode"
  | .localNode .. => "RacketLocalNode"
  | .procedureApplication .. => "RacketProcedureApplicationNode"
  | .testCase .. => "RacketTestCaseNode"
  | .libraryRequire .. => "RacketLibraryRequireNode"

/-- Python's default `str`/`repr` of an AST node object. -/
def pyObjectRepr (addr : String) (n : RNode) : String :=
  "<mracket.reader.syntax." ++ pyClassName n ++ " object at " ++ addr ++ ">"

mutual
/-- `Stringifier.visit` (stringify.py), with the heap address of interpolated
objects supplied as `addr`. -/
def stringifyNode (addr : String) : RNode → String
  | .program _ rd stmts =>
    stringifyNode addr rd ++ "\n" ++ String.intercalate "\n" (stringifyList addr stmts)
  | .readerDirective t => t.source
  | .nameDefinition _ _ defName expr =>
    "(define " ++ defName.token.source ++ " " ++ stringifyNode addr expr ++ ")"
  | .structureDefinition _ _ defName fields =>
    "(define-struct " ++ pyObjectRepr addr defName ++ " (" ++
      String.intercalate " " (stringifyList addr fields) ++ "))"
  | .literal t => t.source
  | .name t => t.source
  | .cond _ _ branches =>
    "(cond " ++ String.intercalate " " (stringifyPairs addr branches) ++ ")"
  | .lambda _ _ vars expr =>
    "(lambda (" ++ String.intercalate " " (stringifyList addr vars) ++ ") " ++
      stringifyNode addr expr ++ ")"
  | .letNode _ _ typ binds expr =>
    "(" ++ typ.value ++ " (" ++ String.intercalate " " (stringifyPairs addr binds) ++
      ") " ++ stringifyNode addr expr ++ ")"
  | .localNode _ _ defs expr =>
    "(local (" ++ String.intercalate " " (stringifyList addr defs) ++ ") " ++
      stringifyNode addr expr ++ ")"
  | .procedureApplication _ _ exprs =>
    "(" ++ String.intercalate " " (stringifyList addr exprs) ++ ")"
  | .testCase _ _ typ exprs =>
    "(" ++ typ.value ++ " " ++ String.intercalate " " (stringifyList addr exprs) ++ ")"
  | .libraryRequire _ _ lib => "(require " ++ stringifyNode addr lib ++ ")"
/-- Stringification of each node of a list. -/
def stringifyList (addr : String) : NodeList → List String
  | .nil => []
  | .cons n rest => stringifyNode addr n :: stringifyList addr rest
/-- Stringification of each `(a b)` pair of a list, as in `visit_cond_node`
and `visit_let_node`. -/
def stringifyPairs (addr : String) : PairList → List String
  | .nil => []
  | .cons a b rest =>
    ("(" ++ stringifyNode addr a ++ " " ++ stringifyNode addr b ++ ")") ::
      stringifyPairs addr rest
end

/-! ## The parser (parser.py)

The parser's state (`_token_stream`, `_current_token`, `_lparen_stack`) is a
`PState` whose `toks` list is the current token followed by the stream.  Each
recursive-descent method is a fueled function; `.outOfFuel` is an artefact of
the embedding and distinct from every Python exception.  Python exceptions are
the `PErr` constructors: the five `errors.py` parser errors, the base
`ParserError` that `Parser._eat` raises on a token-type mismatch, `IndexError`
(a `pop` from an empty list / subscript of an empty stream), `KeyError`
(a missing dict key) and `ValueError` (an enum constructed from an unknown
value). -/

inductive PErr where
  | parserError (tok : Token)
  | expectedReaderDirective (tok : Token)
  | unexpectedEOFToken (tok : Token)
  | unexpectedRightParenthesis (tok : Token)
  | mismatchedParentheses (lparen rparen : Token)
  | illegalState (tok : Option Token)
  | indexError
  | keyError
  | valueError (s : String)
  | outOfFuel
  deriving DecidableEq, Repr

structure PState where
  toks : List Token
  lparenStack : List Token
  deriving DecidableEq, Repr

/-- parser.py `MATCHING_PARENS` (a dict; `none` models `KeyError`). -/
def MATCHING_PARENS (s : String) : Option String :=
  if s = "(" then some ")"
  else if s = "[" then some "]"
  else if s = lbraceStr then some rbraceStr
  else none

/-- parser.py `LITERAL_TOKEN_TYPES`. -/
def LITERAL_TOKEN_TYPES : List TokenType := [.BOOLEAN, .CHARACTER, .NUMBER, .STRING]

/-- parser.py `QUOTE_RELATED_TOKEN_TYPES`. -/
def QUOTE_RELATED_TOKEN_TYPES : List TokenType :=
  [.QUASIQUOTE, .QUOTE, .UNQUOTE, .UNQUOTE_SPLICING]

/-- parser.py `QUOTE_RELATED_TOKEN_TYPE_NAME`. -/
def quoteRelatedName (t : TokenType) : Option String :=
  match t with
  | .QUASIQUOTE => some "quasiquote"
  | .QUOTE => some "quote"
  | .UNQUOTE => some "unquote"
  | .UNQUOTE_SPLICING => some "unquote-splicing"
  | _ => none

/-- The heads recognized by the `TEST_CASE` regular expression (a prefix
match, as `re.match` anchors only at the start). -/
def TEST_CASE_HEADS : List String :=
  ["check-expect", "check-random", "check-within", "check-member-of",
   "check-range", "check-satisfied", "check-error"]

/-- The paren-stack maintenance inside `Parser._eat` (append on LPAREN; pop
and check the closer against `MATCHING_PARENS` on RPAREN). -/
def eatStack (ty : TokenType) (cur : Token) (st : PState) : Except PErr (List Token) :=
  if ty = .LPAREN then .ok (cur :: st.lparenStack)
  else if ty = .RPAREN then
    match st.lparenStack with
    | [] => .error .indexError
    | lp :: stk =>
      match MATCHING_PARENS lp.source with
      | none => .error .keyError
      | some closer =>
        if cur.source = closer then .ok stk
        else .error (.mismatchedParentheses lp cur)
  else .ok st.lparenStack

/-- `Parser._eat` (parser.py lines 308-321): check the current token's type
(raising the base `ParserError` otherwise), maintain the paren stack, and pop
the next token from the stream (an `IndexError` when it is exhausted). -/
def eat (ty : TokenType) (st : PState) : Except PErr (Token × PState) :=
  match st.toks with
  | [] => .error .indexError
  | cur :: rest =>
    if cur.type = ty then
      match eatStack ty cur st with
      | .error e => .error e
      | .ok stk =>
        match rest with
        | [] => .error .indexError
        | _ => .ok (cur, { toks := rest, lparenStack := stk })
    else .error (.parserError cur)

/-- `Parser._is_special_statement` (lines 332-338): current token is an
LPAREN, the stream is non-empty, and the next token is a SYMBOL matched by the
given prefix list. -/
def isSpecialStatement (heads : List String) (st : PState) : Bool :=
  match st.toks with
  | cur :: next :: _ =>
    cur.type = .LPAREN ∧ (next.type = .SYMBOL ∧ heads.any (fun p => strStarts next.source p))
  | _ => false

/-- `Parser._name` (builds a `RacketNameNode` from an eaten SYMBOL). -/
def pName (st : PState) : Except PErr (RNode × PState) := do
  let (tok, st₁) ← eat .SYMBOL st
  .ok (.name tok, st₁)

/-- `Parser._literal`. -/
def pLiteral (st : PState) : Except PErr (RNode × PState) :=
  match st.toks with
  | [] => .error .indexError
  | cur :: _ => do
    let (tok, st₁) ← eat cur.type st
    .ok (.literal tok, st₁)

/-- `Parser._reader_directive`. -/
def pReaderDirective (st : PState) : Except PErr (RNode × PState) :=
  match st.toks with
  | [] => .error .indexError
  | cur :: _ => do
    let (_, st₁) ← eat .READER_DIRECTIVE st
    .ok (.readerDirective cur, st₁)

/-- The `while current is not RPAREN: names.append(self._name())` loops of
`_desugar_function_definition`, `_structure_definition` and `_lambda`. -/
def pNamesSeq : Nat → PState → Except PErr (List RNode × PState)
  | 0, _ => .error .outOfFuel
  | fuel + 1, st =>
    match st.toks with
    | [] => .error .indexError
    | cur :: _ =>
      if cur.type = .RPAREN then .ok ([], st)
      else do
        let (n, st₁) ← pName st
        let (ns, st₂) ← pNamesSeq fuel st₁
        .ok (n :: ns, st₂)

/-- The construction of the desugared quote node at the end of
`Parser._desugar_quote_related` (parser.py lines 190-206), including the
`QUOTE_RELATED_TOKEN_TYPE_NAME[...]` dict lookup. -/
def quoteRelatedBuild (ty : TokenType) (expr : RNode) (st : PState) :
    Except PErr (RNode × PState) :=
  match quoteRelatedName ty with
  | none => .error .keyError
  | some nm =>
    .ok (.procedureApplication DUMMY_LPAREN_TOKEN DUMMY_RPAREN_TOKEN
      (.cons (.name (Token.mk ty (-1) (-1) (-1) nm)) (.cons expr .nil)), st)

/-- The `RacketLetNode(... typ=RacketLetNode.Type(name.source) ...)`
construction at the end of `Parser._let`, whose enum call can raise
`ValueError`. -/
def letNodeBuild (lparen rparen nameTok : Token) (binds : List (RNode × RNode))
    (expr : RNode) (st : PState) : Except PErr (RNode × PState) :=
  match letTypeFromSource nameTok.source with
  | none => .error (.valueError nameTok.source)
  | some typ => .ok (.letNode lparen rparen typ (PairList.ofList binds) expr, st)

/-- The `RacketTestCaseNode(... typ=RacketTestCaseNode.Type(name.source) ...)`
construction at the end of `Parser._test_case`. -/
def testCaseBuild (lparen rparen nameTok : Token) (exprs : List RNode)
    (st : PState) : Except PErr (RNode × PState) :=
  match testCaseTypeFromSource nameTok.source with
  | none => .error (.valueError nameTok.source)
  | some typ => .ok (.testCase lparen rparen typ (NodeList.ofList exprs), st)

mutual

/-- `Parser._statement` (parser.py lines 86-98). -/
def pStatement : Nat → PState → Except PErr (RNode × PState)
  | 0, _ => .error .outOfFuel
  | fuel + 1, st =>
    match st.toks with
    | [] => .error .indexError
    | cur :: _ =>
      if cur.type = .EOF then .error (.unexpectedEOFToken cur)
      else if cur.type = .RPAREN then .error (.unexpectedRightParenthesis cur)
      else if isSpecialStatement ["define"] st then pDefinition fuel st
      else if isSpecialStatement TEST_CASE_HEADS st then pTestCase fuel st
      else if isSpecialStatement ["require"] st then pLibraryRequire fuel st
      else pExpression fuel st

/-- `Parser._definition` with its `_is_name_definition` /
`_is_structure_definition` lookaheads (`self._token_stream[0].source`). -/
def pDefinition : Nat → PState → Except PErr (RNode × PState)
  | 0, _ => .error .outOfFuel
  | fuel + 1, st =>
    match st.toks with
    | _ :: next :: _ =>
      if next.source = "define" then pNameDefinition fuel st
      else if next.source = "define-struct" then pStructureDefinition fuel st
      else .error (.illegalState none)
    | _ => .error .indexError

/-- `Parser._name_definition`. -/
def pNameDefinition : Nat → PState → Except PErr (RNode × PState)
  | 0, _ => .error .outOfFuel
  | fuel + 1, st => do
    let (lparen, st₁) ← eat .LPAREN st
    let (_, st₂) ← eat .SYMBOL st₁
    pNameDefinitionBody fuel lparen st₂

/-- The dispatch on the current token after `(define` has been consumed in
`Parser._name_definition` (parser.py lines 111-119). -/
def pNameDefinitionBody : Nat → Token → PState → Except PErr (RNode × PState)
  | 0, _, _ => .error .outOfFuel
  | fuel + 1, lparen, st₂ =>
    match st₂.toks with
    | [] => .error .indexError
    | cur :: _ =>
      if cur.type = .LPAREN then pDesugarFunctionDefinition fuel lparen st₂
      else if cur.type = .SYMBOL then do
        let (nameN, st₃) ← pName st₂
        let (expr, st₄) ← pExpression fuel st₃
        let (rparen, st₅) ← eat .RPAREN st₄
        .ok (.nameDefinition lparen rparen nameN expr, st₅)
      else .error (.illegalState none)

/-- `Parser._desugar_function_definition`. -/
def pDesugarFunctionDefinition : Nat → Token → PState → Except PErr (RNode × PState)
  | 0, _, _ => .error .outOfFuel
  | fuel + 1, lparen, st => do
    let (_, st₁) ← eat .LPAREN st
    let (nameN, st₂) ← pName st₁
    let (vars, st₃) ← pNamesSeq fuel st₂
    let (_, st₄) ← eat .RPAREN st₃
    let (expr, st₅) ← pExpression fuel st₄
    let (rparen, st₆) ← eat .RPAREN st₅
    .ok (.nameDefinition lparen rparen nameN
      (.lambda DUMMY_LPAREN_TOKEN DUMMY_RPAREN_TOKEN (NodeList.ofList vars) expr), st₆)

/-- `Parser._structure_definition`. -/
def pStructureDefinition : Nat → PState → Except PErr (RNode × PState)
  | 0, _ => .error .outOfFuel
  | fuel + 1, st => do
    let (lparen, st₁) ← eat .LPAREN st
    let (_, st₂) ← eat .SYMBOL st₁
    let (nameN, st₃) ← pName st₂
    let (_, st₄) ← eat .LPAREN st₃
    let (fields, st₅) ← pNamesSeq fuel st₄
    let (_, st₆) ← eat .RPAREN st₅
    let (rparen, st₇) ← eat .RPAREN st₆
    .ok (.structureDefinition lparen rparen nameN (NodeList.ofList fields), st₇)

/-- `Parser._expression` (parser.py lines 155-179) with the
`_is_special_expression` lookaheads, which subscript `self._token_stream[0]`
(an `IndexError` when the stream is empty). -/
def pExpression : Nat → PState → Except PErr (RNode × PState)
  | 0, _ => .error .outOfFuel
  | fuel + 1, st =>
    match st.toks with
    | [] => .error .indexError
    | cur :: tl =>
      if cur.type ∈ LITERAL_TOKEN_TYPES then pLiteral st
      else if cur.type = .SYMBOL then pName st
      else if cur.type ∈ QUOTE_RELATED_TOKEN_TYPES then pDesugarQuoteRelated fuel st
      else if cur.type ≠ .LPAREN then .error (.illegalState (some cur))
      else
        match tl with
        | next :: _ =>
          if next.type = .SYMBOL ∧ next.source = "cond" then pCond fuel st
          else if next.type = .SYMBOL ∧ next.source = "if" then pIf fuel st
          else if next.type = .SYMBOL ∧ (next.source = "λ" ∨ next.source = "lambda") then
            pLambda fuel st
          else if next.type = .SYMBOL ∧
              (next.source = "letrec" ∨ next.source = "let" ∨ next.source = "let*") then
            pLet fuel st
          else if next.type = .SYMBOL ∧ next.source = "local" then pLocal fuel st
          else pProcedureApplication fuel st
        | [] => .error .indexError

/-- `Parser._desugar_quote_related`. -/
def pDesugarQuoteRelated : Nat → PState → Except PErr (RNode × PState)
  | 0, _ => .error .outOfFuel
  | fuel + 1, st =>
    match st.toks with
    | [] => .error .indexError
    | cur :: _ => do
      let (_, st₁) ← eat cur.type st
      let (expr, st₂) ← pExpression fuel st₁
      quoteRelatedBuild cur.type expr st₂

/-- `Parser._cond`. -/
def pCond : Nat → PState → Except PErr (RNode × PState)
  | 0, _ => .error .outOfFuel
  | fuel + 1, st => do
    let (lparen, st₁) ← eat .LPAREN st
    let (_, st₂) ← eat .SYMBOL st₁
    let (branches, st₃) ← pCondBranches fuel st₂
    let (rparen, st₄) ← eat .RPAREN st₃
    .ok (.cond lparen rparen (PairList.ofList branches), st₄)

/-- The branch loop of `Parser._cond`. -/
def pCondBranches : Nat → PState → Except PErr (List (RNode × RNode) × PState)
  | 0, _ => .error .outOfFuel
  | fuel + 1, st =>
    match st.toks with
    | [] => .error .indexError
    | cur :: _ =>
      if cur.type = .RPAREN then .ok ([], st)
      else do
        let (_, st₁) ← eat .LPAREN st
        let (c, st₂) ← pExpression fuel st₁
        let (e, st₃) ← pExpression fuel st₂
        let (_, st₄) ← eat .RPAREN st₃
        let (rest, st₅) ← pCondBranches fuel st₄
        .ok ((c, e) :: rest, st₅)

/-- `Parser._if` (desugars to a cond with an `else` branch). -/
def pIf : Nat → PState → Except PErr (RNode × PState)
  | 0, _ => .error .outOfFuel
  | fuel + 1, st => do
    let (lparen, st₁) ← eat .LPAREN st
    let (_, st₂) ← eat .SYMBOL st₁
    let (condition, st₃) ← pExpression fuel st₂
    let (trueExpr, st₄) ← pExpression fuel st₃
    let (falseExpr, st₅) ← pExpression fuel st₄
    let (rparen, st₆) ← eat .RPAREN st₅
    .ok (.cond lparen rparen
      (.cons condition trueExpr
        (.cons (.name DUMMY_ELSE_SYMBOL_TOKEN) falseExpr .nil)), st₆)

/-- `Parser._lambda`. -/
def pLambda : Nat → PState → Except PErr (RNode × PState)
  | 0, _ => .error .outOfFuel
  | fuel + 1, st => do
    let (lparen, st₁) ← eat .LPAREN st
    let (_, st₂) ← eat .SYMBOL st₁
    let (_, st₃) ← eat .LPAREN st₂
    let (vars, st₄) ← pNamesSeq fuel st₃
    let (_, st₅) ← eat .RPAREN st₄
    let (expr, st₆) ← pExpression fuel st₅
    let (rparen, st₇) ← eat .RPAREN st₆
    .ok (.lambda lparen rparen (NodeList.ofList vars) expr, st₇)

/-- `Parser._let`.  (The snapshot's syntax.py has no `RacketLetNode`; the node
built here follows the constructor call in parser.py lines 262-268.) -/
def pLet : Nat → PState → Except PErr (RNode × PState)
  | 0, _ => .error .outOfFuel
  | fuel + 1, st => do
    let (lparen, st₁) ← eat .LPAREN st
    let (nameTok, st₂) ← eat .SYMBOL st₁
    let (_, st₃) ← eat .LPAREN st₂
    let (binds, st₄) ← pLetBindings fuel st₃
    let (_, st₅) ← eat .RPAREN st₄
    let (expr, st₆) ← pExpression fuel st₅
    let (rparen, st₇) ← eat .RPAREN st₆
    letNodeBuild lparen rparen nameTok binds expr st₇

/-- The binding loop of `Parser._let`. -/
def pLetBindings : Nat → PState → Except PErr (List (RNode × RNode) × PState)
  | 0, _ => .error .outOfFuel
  | fuel + 1, st =>
    match st.toks with
    | [] => .error .indexError
    | cur :: _ =>
      if cur.type = .RPAREN then .ok ([], st)
      else do
        let (_, st₁) ← eat .LPAREN st
        let (n, st₂) ← pName st₁
        let (e, st₃) ← pExpression fuel st₂
        let (_, st₄) ← eat .RPAREN st₃
        let (rest, st₅) ← pLetBindings fuel st₄
        .ok ((n, e) :: rest, st₅)

/-- `Parser._local`. -/
def pLocal : Nat → PState → Except PErr (RNode × PState)
  | 0, _ => .error .outOfFuel
  | fuel + 1, st => do
    let (lparen, st₁) ← eat .LPAREN st
    let (_, st₂) ← eat .SYMBOL st₁
    let (_, st₃) ← eat .LPAREN st₂
    let (defs, st₄) ← pDefinitionsSeq fuel st₃
    let (_, st₅) ← eat .RPAREN st₄
    let (expr, st₆) ← pExpression fuel st₅
    let (rparen, st₇) ← eat .RPAREN st₆
    .ok (.localNode lparen rparen (NodeList.ofList defs) expr, st₇)

/-- The definition loop of `Parser._local`. -/
def pDefinitionsSeq : Nat → PState → Except PErr (List RNode × PState)
  | 0, _ => .error .outOfFuel
  | fuel + 1, st =>
    match st.toks with
    | [] => .error .indexError
    | cur :: _ =>
      if cur.type = .RPAREN then .ok ([], st)
      else do
        let (d, st₁) ← pDefinition fuel st
        let (ds, st₂) ← pDefinitionsSeq fuel st₁
        .ok (d :: ds, st₂)

/-- `Parser._procedure_application`. -/
def pProcedureApplication : Nat → PState → Except PErr (RNode × PState)
  | 0, _ => .error .outOfFuel
  | fuel + 1, st => do
    let (lparen, st₁) ← eat .LPAREN st
    let (exprs, st₂) ← pExpressionsSeq fuel st₁
    let (rparen, st₃) ← eat .RPAREN st₂
    .ok (.procedureApplication lparen rparen (NodeList.ofList exprs), st₃)

/-- The expression loop of `_procedure_application` and `_test_case`. -/
def pExpressionsSeq : Nat → PState → Except PErr (List RNode × PState)
  | 0, _ => .error .outOfFuel
  | fuel + 1, st =>
    match st.toks with
    | [] => .error .indexError
    | cur :: _ =>
      if cur.type = .RPAREN then .ok ([], st)
      else do
        let (e, st₁) ← pExpression fuel st
        let (es, st₂) ← pExpressionsSeq fuel st₁
        .ok (e :: es, st₂)

/-- `Parser._test_case`.  (The `RacketTestCaseNode` constructed in parser.py
lines 297-299 carries `typ`/`expressions`; see the syntax.py note above.) -/
def pTestCase : Nat → PState → Except PErr (RNode × PState)
  | 0, _ => .error .outOfFuel
  | fuel + 1, st => do
    let (lparen, st₁) ← eat .LPAREN st
    let (nameTok, st₂) ← eat .SYMBOL st₁
    let (exprs, st₃) ← pExpressionsSeq fuel st₂
    let (rparen, st₄) ← eat .RPAREN st₃
    testCaseBuild lparen rparen nameTok exprs st₄

/-- `Parser._library_require`. -/
def pLibraryRequire : Nat → PState → Except PErr (RNode × PState)
  | 0, _ => .error .outOfFuel
  | _fuel + 1, st => do
    let (lparen, st₁) ← eat .LPAREN st
    let (_, st₂) ← eat .SYMBOL st₁
    let (lib, st₃) ← pName st₂
    let (rparen, st₄) ← eat .RPAREN st₃
    .ok (.libraryRequire lparen rparen lib, st₄)

end

/-- The `while self._current_token.type is not EOF` loop of `Parser.parse`:
a later reader directive overwrites `reader_directive`. -/
def parseLoop : Nat → PState → Option RNode → List RNode →
    Except PErr (Option RNode × List RNode × PState)
  | 0, _, _, _ => .error .outOfFuel
  | fuel + 1, st, rd, stmts =>
    match st.toks with
    | [] => .error .indexError
    | cur :: _ =>
      if cur.type = .EOF then .ok (rd, stmts, st)
      else if cur.type = .READER_DIRECTIVE then do
        let (node, st₁) ← pReaderDirective st
        parseLoop fuel st₁ (some node) stmts
      else do
        let (node, st₁) ← pStatement fuel st
        parseLoop fuel st₁ rd (stmts ++ [node])

/-- The tail of `Parser.parse`: raise `ExpectedReaderDirective` when no
directive was seen, otherwise build the `RacketProgramNode`. -/
def parseFinish (first : Token) (rd : Option RNode) (stmts : List RNode) :
    Except PErr RNode :=
  match rd with
  | none => .error (.expectedReaderDirective EOF_TOKEN)
  | some rdNode => .ok (.program first rdNode (NodeList.ofList stmts))

/-- `Parser.parse` (parser.py lines 47-68). -/
def parseTokens (ts : List Token) : Except PErr RNode :=
  match ts with
  | [] => .error .indexError
  | first :: _ => do
    let (rd, stmts, _) ← parseLoop (8 * ts.length + 32) { toks := ts, lparenStack := [] }
      none []
    parseFinish first rd stmts

/-- `Parser.parse_expression` (parser.py lines 70-79). -/
def parseExpressionTokens (ts : List Token) : Except PErr RNode :=
  match ts with
  | [] => .error .indexError
  | _ :: _ =>
    (pExpression (8 * ts.length + 32) { toks := ts, lparenStack := [] }).map (·.1)

/-- Tokenize-then-parse, the composition used throughout the runner, with the
concrete matcher standing in for the regular expressions. -/
def parseSource (s : String) : Except PErr RNode :=
  parseTokens (tokenize concreteReMatch (2 * s.length + 16) s)

/-! ### Structural facts about the parser (for claims C5 and C6)

`Consumed st st'` says a parsing step turned state `st` into `st'` by
consuming a prefix of the token stream containing neither reader-directive
nor EOF tokens; `PGood st r` bundles it with the fact that the step never
raised `UnexpectedEOFTokenError`. -/

def Consumed (st st' : PState) : Prop :=
  ∃ pre, st.toks = pre ++ st'.toks ∧
    ∀ t ∈ pre, t.type ≠ .READER_DIRECTIVE ∧ t.type ≠ .EOF

def PGood {α : Type} (st : PState) (r : Except PErr (α × PState)) : Prop :=
  (∀ t, r ≠ .error (.unexpectedEOFToken t)) ∧
  ∀ a st', r = .ok (a, st') → Consumed st st'

theorem consumed_refl (st : PState) : Consumed st st :=
  ⟨[], by simp, by simp⟩

theorem consumed_trans {st st₁ st₂ : PState} (h₁ : Consumed st st₁)
    (h₂ : Consumed st₁ st₂) : Consumed st st₂ := by
  obtain ⟨p₁, hp₁, hf₁⟩ := h₁
  obtain ⟨p₂, hp₂, hf₂⟩ := h₂
  refine ⟨p₁ ++ p₂, ?_, ?_⟩
  · rw [hp₁, hp₂, List.append_assoc]
  · intro t ht
    rcases List.mem_append.mp ht with h | h
    · exact hf₁ t h
    · exact hf₂ t h

theorem pgood_error {α : Type} (st : PState) (e : PErr)
    (he : ∀ t, e ≠ .unexpectedEOFToken t) : PGood (α := α) st (.error e) :=
  ⟨fun t h => he t (by injection h), fun a st' h => by injection h⟩

theorem pgood_ok_refl {α : Type} (st : PState) (a : α) : PGood st (.ok (a, st)) :=
  ⟨fun t h => by injection h, fun b st' h => by
    injection h with h
    rw [show st' = st from congrArg Prod.snd h.symm]
    exact consumed_refl st⟩

theorem pgood_bind {α β : Type} {st : PState} {x : Except PErr (α × PState)}
    {f : α × PState → Except PErr (β × PState)} (hx : PGood st x)
    (hf : ∀ a st', x = .ok (a, st') → PGood st' (f (a, st'))) :
    PGood st (x >>= f) := by
  cases x with
  | error e =>
    have hb : ((Except.error e : Except PErr (α × PState)) >>= f) = .error e := rfl
    rw [hb]
    exact pgood_error st e (fun t ht => hx.1 t (by rw [ht]))
  | ok p =>
    obtain ⟨a, st₁⟩ := p
    have hb : (Except.ok (a, st₁) >>= f) = f (a, st₁) := rfl
    rw [hb]
    have hgood := hf a st₁ rfl
    refine ⟨hgood.1, fun b st₂ h => ?_⟩
    exact consumed_trans (hx.2 a st₁ rfl) (hgood.2 b st₂ h)

theorem eat_ok {ty : TokenType} {st : PState} {tok : Token} {st' : PState}
    (h : eat ty st = .ok (tok, st')) :
    ∃ tl, st.toks = tok :: tl ∧ tok.type = ty ∧ st'.toks = tl := by
  unfold eat at h
  split at h
  · exact absurd h (by simp)
  · rename_i cur rest heq
    split at h
    · rename_i hty
      split at h
      · exact absurd h (by simp)
      · rename_i stk hstk
        split at h
        · exact absurd h (by simp)
        · injection h with h
          have h1 : cur = tok := congrArg Prod.fst h
          have h2 : st' = { toks := rest, lparenStack := stk } := (congrArg Prod.snd h).symm
          subst h1
          exact ⟨rest, heq, hty, by rw [h2]⟩
    · exact absurd h (by simp)

theorem eatStack_noUEOF (ty : TokenType) (cur : Token) (st : PState) :
    ∀ t, eatStack ty cur st ≠ .error (.unexpectedEOFToken t) := by
  intro t h
  unfold eatStack at h
  split at h
  · simp at h
  · split at h
    · split at h
      · simp at h
      · split at h
        · simp at h
        · split at h
          · simp at h
          · simp at h
    · simp at h

theorem eat_noUEOF (ty : TokenType) (st : PState) :
    ∀ t, eat ty st ≠ .error (.unexpectedEOFToken t) := by
  intro t h
  unfold eat at h
  split at h
  · simp at h
  · split at h
    · split at h
      · rename_i e' hesplit
        injection h with h
        exact eatStack_noUEOF _ _ _ t (by rw [hesplit, h])
      · split at h
        · simp at h
        · simp at h
    · simp at h

theorem pgood_eat (ty : TokenType) (hty : ty ≠ .READER_DIRECTIVE ∧ ty ≠ .EOF)
    (st : PState) : PGood st (eat ty st) := by
  refine ⟨eat_noUEOF ty st, fun tok st' h => ?_⟩
  obtain ⟨tl, h1, h2, h3⟩ := eat_ok h
  exact ⟨[tok], by rw [h1, h3]; rfl, by
    intro t ht
    rw [List.mem_singleton.mp ht, h2]
    exact hty⟩

theorem pgood_pName (st : PState) : PGood st (pName st) := by
  unfold pName
  exact pgood_bind (pgood_eat .SYMBOL (by simp) st)
    (fun tok st₁ _ => pgood_ok_refl st₁ _)

theorem pgood_pLiteral {st : PState} {cur : Token} {tl : List Token}
    (heq : st.toks = cur :: tl) (hty : cur.type ≠ .READER_DIRECTIVE ∧ cur.type ≠ .EOF) :
    PGood st (pLiteral st) := by
  unfold pLiteral
  rw [heq]
  exact pgood_bind (pgood_eat cur.type hty st)
    (fun tok st₁ _ => pgood_ok_refl st₁ _)

theorem pgood_pNamesSeq : ∀ (fuel : Nat) (st : PState), PGood st (pNamesSeq fuel st) := by
  intro fuel
  induction fuel with
  | zero => exact fun st => pgood_error st .outOfFuel (by simp)
  | succ fuel ih =>
    intro st
    unfold pNamesSeq
    split
    · exact pgood_error st .indexError (by simp)
    · split
      · exact pgood_ok_refl st _
      · exact pgood_bind (pgood_pName st) (fun n st₁ _ =>
          pgood_bind (ih st₁) (fun ns st₂ _ => pgood_ok_refl st₂ _))

theorem literal_type_ok {ty : TokenType} (h : ty ∈ LITERAL_TOKEN_TYPES) :
    ty ≠ .READER_DIRECTIVE ∧ ty ≠ .EOF := by
  simp [LITERAL_TOKEN_TYPES] at h
  rcases h with h | h | h | h <;> subst h <;> exact ⟨by decide, by decide⟩

theorem quote_type_ok {ty : TokenType} (h : ty ∈ QUOTE_RELATED_TOKEN_TYPES) :
    ty ≠ .READER_DIRECTIVE ∧ ty ≠ .EOF := by
  simp [QUOTE_RELATED_TOKEN_TYPES] at h
  rcases h with h | h | h | h <;> subst h <;> exact ⟨by decide, by decide⟩

theorem pgood_quoteRelatedBuild (ty : TokenType) (expr : RNode) (st : PState) :
    PGood st (quoteRelatedBuild ty expr st) := by
  unfold quoteRelatedBuild
  split
  · exact pgood_error st .keyError (by simp)
  · exact pgood_ok_refl st _

theorem pgood_letNodeBuild (lparen rparen nameTok : Token)
    (binds : List (RNode × RNode)) (expr : RNode) (st : PState) :
    PGood st (letNodeBuild lparen rparen nameTok binds expr st) := by
  unfold letNodeBuild
  split
  · exact pgood_error st _ (by simp)
  · exact pgood_ok_refl st _

theorem pgood_testCaseBuild (lparen rparen nameTok : Token) (exprs : List RNode)
    (st : PState) : PGood st (testCaseBuild lparen rparen nameTok exprs st) := by
  unfold testCaseBuild
  split
  · exact pgood_error st _ (by simp)
  · exact pgood_ok_refl st _

/-- The simultaneous induction statement for the recursive-descent functions:
each never raises `UnexpectedEOFTokenError` and, on success, consumes a prefix
containing no reader-directive and no EOF token (`pStatement` is stated under
the guard its single caller, the `Parser.parse` loop, establishes, and
`pDesugarQuoteRelated` under the guard `Parser._expression` establishes). -/
structure ParserGood (fuel : Nat) : Prop where
  defn : ∀ st, PGood st (pDefinition fuel st)
  nameDefn : ∀ st, PGood st (pNameDefinition fuel st)
  nameDefnBody : ∀ lp st, PGood st (pNameDefinitionBody fuel lp st)
  desugarFn : ∀ lp st, PGood st (pDesugarFunctionDefinition fuel lp st)
  structDefn : ∀ st, PGood st (pStructureDefinition fuel st)
  expr : ∀ st, PGood st (pExpression fuel st)
  quoteRel : ∀ st cur tl, st.toks = cur :: tl → cur.type ∈ QUOTE_RELATED_TOKEN_TYPES →
    PGood st (pDesugarQuoteRelated fuel st)
  condE : ∀ st, PGood st (pCond fuel st)
  condBr : ∀ st, PGood st (pCondBranches fuel st)
  ifE : ∀ st, PGood st (pIf fuel st)
  lambdaE : ∀ st, PGood st (pLambda fuel st)
  letE : ∀ st, PGood st (pLet fuel st)
  letBinds : ∀ st, PGood st (pLetBindings fuel st)
  localE : ∀ st, PGood st (pLocal fuel st)
  defsSeq : ∀ st, PGood st (pDefinitionsSeq fuel st)
  procApp : ∀ st, PGood st (pProcedureApplication fuel st)
  exprsSeq : ∀ st, PGood st (pExpressionsSeq fuel st)
  testC : ∀ st, PGood st (pTestCase fuel st)
  libReq : ∀ st, PGood st (pLibraryRequire fuel st)
  stmt : ∀ st cur tl, st.toks = cur :: tl → cur.type ≠ .EOF →
    PGood st (pStatement fuel st)

theorem parserGood : ∀ fuel, ParserGood fuel := by
  intro fuel
  induction fuel with
  | zero =>
    constructor <;>
      first
        | exact fun st => pgood_error st .outOfFuel (by simp)
        | exact fun _ st => pgood_error st .outOfFuel (by simp)
        | exact fun st _ _ _ _ => pgood_error st .outOfFuel (by simp)
  | succ fuel ih =>
    constructor
    case defn =>
      intro st
      unfold pDefinition
      split
      · split
        · exact ih.nameDefn st
        · split
          · exact ih.structDefn st
          · exact pgood_error st _ (by simp)
      · exact pgood_error st .indexError (by simp)
    case nameDefn =>
      intro st
      unfold pNameDefinition
      refine pgood_bind (pgood_eat .LPAREN (by decide) st) fun lparen st₁ _ => ?_
      refine pgood_bind (pgood_eat .SYMBOL (by decide) st₁) fun _ st₂ _ => ?_
      exact ih.nameDefnBody lparen st₂
    case nameDefnBody =>
      intro lp st
      unfold pNameDefinitionBody
      split
      · exact pgood_error st .indexError (by simp)
      · split
        · exact ih.desugarFn lp st
        · split
          · refine pgood_bind (pgood_pName st) fun nameN st₃ _ => ?_
            refine pgood_bind (ih.expr st₃) fun expr st₄ _ => ?_
            refine pgood_bind (pgood_eat .RPAREN (by decide) st₄) fun rparen st₅ _ => ?_
            exact pgood_ok_refl st₅ _
          · exact pgood_error st _ (by simp)
    case desugarFn =>
      intro lp st
      unfold pDesugarFunctionDefinition
      refine pgood_bind (pgood_eat .LPAREN (by decide) st) fun _ st₁ _ => ?_
      refine pgood_bind (pgood_pName st₁) fun nameN st₂ _ => ?_
      refine pgood_bind (pgood_pNamesSeq fuel st₂) fun vars st₃ _ => ?_
      refine pgood_bind (pgood_eat .RPAREN (by decide) st₃) fun _ st₄ _ => ?_
      refine pgood_bind (ih.expr st₄) fun expr st₅ _ => ?_
      refine pgood_bind (pgood_eat .RPAREN (by decide) st₅) fun rparen st₆ _ => ?_
      exact pgood_ok_refl st₆ _
    case structDefn =>
      intro st
      unfold pStructureDefinition
      refine pgood_bind (pgood_eat .LPAREN (by decide) st) fun lparen st₁ _ => ?_
      refine pgood_bind (pgood_eat .SYMBOL (by decide) st₁) fun _ st₂ _ => ?_
      refine pgood_bind (pgood_pName st₂) fun nameN st₃ _ => ?_
      refine pgood_bind (pgood_eat .LPAREN (by decide) st₃) fun _ st₄ _ => ?_
      refine pgood_bind (pgood_pNamesSeq fuel st₄) fun fields st₅ _ => ?_
      refine pgood_bind (pgood_eat .RPAREN (by decide) st₅) fun _ st₆ _ => ?_
      refine pgood_bind (pgood_eat .RPAREN (by decide) st₆) fun rparen st₇ _ => ?_
      exact pgood_ok_refl st₇ _
    case expr =>
      intro st
      unfold pExpression
      split
      · exact pgood_error st .indexError (by simp)
      · rename_i cur tl heq
        split
        · rename_i hmem
          exact pgood_pLiteral heq (literal_type_ok hmem)
        · split
          · exact pgood_pName st
          · split
            · rename_i hmem
              exact ih.quoteRel st cur tl heq hmem
            · split
              · exact pgood_error st _ (by simp)
              · split
                · split
                  · exact ih.condE st
                  · split
                    · exact ih.ifE st
                    · split
                      · exact ih.lambdaE st
                      · split
                        · exact ih.letE st
                        · split
                          · exact ih.localE st
                          · exact ih.procApp st
                · exact pgood_error st .indexError (by simp)
    case quoteRel =>
      intro st cur tl heq hmem
      unfold pDesugarQuoteRelated
      rw [heq]
      refine pgood_bind (pgood_eat cur.type (quote_type_ok hmem) st) fun _ st₁ _ => ?_
      refine pgood_bind (ih.expr st₁) fun expr st₂ _ => ?_
      exact pgood_quoteRelatedBuild cur.type expr st₂
    case condE =>
      intro st
      unfold pCond
      refine pgood_bind (pgood_eat .LPAREN (by decide) st) fun lparen st₁ _ => ?_
      refine pgood_bind (pgood_eat .SYMBOL (by decide) st₁) fun _ st₂ _ => ?_
      refine pgood_bind (ih.condBr st₂) fun branches st₃ _ => ?_
      refine pgood_bind (pgood_eat .RPAREN (by decide) st₃) fun rparen st₄ _ => ?_
      exact pgood_ok_refl st₄ _
    case condBr =>
      intro st
      unfold pCondBranches
      split
      · exact pgood_error st .indexError (by simp)
      · split
        · exact pgood_ok_refl st _
        · refine pgood_bind (pgood_eat .LPAREN (by decide) st) fun _ st₁ _ => ?_
          refine pgood_bind (ih.expr st₁) fun c st₂ _ => ?_
          refine pgood_bind (ih.expr st₂) fun e st₃ _ => ?_
          refine pgood_bind (pgood_eat .RPAREN (by decide) st₃) fun _ st₄ _ => ?_
          refine pgood_bind (ih.condBr st₄) fun rest st₅ _ => ?_
          exact pgood_ok_refl st₅ _
    case ifE =>
      intro st
      unfold pIf
      refine pgood_bind (pgood_eat .LPAREN (by decide) st) fun lparen st₁ _ => ?_
      refine pgood_bind (pgood_eat .SYMBOL (by decide) st₁) fun _ st₂ _ => ?_
      refine pgood_bind (ih.expr st₂) fun c st₃ _ => ?_
      refine pgood_bind (ih.expr st₃) fun t st₄ _ => ?_
      refine pgood_bind (ih.expr st₄) fun f st₅ _ => ?_
      refine pgood_bind (pgood_eat .RPAREN (by decide) st₅) fun rparen st₆ _ => ?_
      exact pgood_ok_refl st₆ _
    case lambdaE =>
      intro st
      unfold pLambda
      refine pgood_bind (pgood_eat .LPAREN (by decide) st) fun lparen st₁ _ => ?_
      refine pgood_bind (pgood_eat .SYMBOL (by decide) st₁) fun _ st₂ _ => ?_
      refine pgood_bind (pgood_eat .LPAREN (by decide) st₂) fun _ st₃ _ => ?_
      refine pgood_bind (pgood_pNamesSeq fuel st₃) fun vars st₄ _ => ?_
      refine pgood_bind (pgood_eat .RPAREN (by decide) st₄) fun _ st₅ _ => ?_
      refine pgood_bind (ih.expr st₅) fun expr st₆ _ => ?_
      refine pgood_bind (pgood_eat .RPAREN (by decide) st₆) fun rparen st₇ _ => ?_
      exact pgood_ok_refl st₇ _
    case letE =>
      intro st
      unfold pLet
      refine pgood_bind (pgood_eat .LPAREN (by decide) st) fun lparen st₁ _ => ?_
      refine pgood_bind (pgood_eat .SYMBOL (by decide) st₁) fun nameTok st₂ _ => ?_
      refine pgood_bind (pgood_eat .LPAREN (by decide) st₂) fun _ st₃ _ => ?_
      refine pgood_bind (ih.letBinds st₃) fun binds st₄ _ => ?_
      refine pgood_bind (pgood_eat .RPAREN (by decide) st₄) fun _ st₅ _ => ?_
      refine pgood_bind (ih.expr st₅) fun expr st₆ _ => ?_
      refine pgood_bind (pgood_eat .RPAREN (by decide) st₆) fun rparen st₇ _ => ?_
      exact pgood_letNodeBuild lparen rparen nameTok binds expr st₇
    case letBinds =>
      intro st
      unfold pLetBindings
      split
      · exact pgood_error st .indexError (by simp)
      · split
        · exact pgood_ok_refl st _
        · refine pgood_bind (pgood_eat .LPAREN (by decide) st) fun _ st₁ _ => ?_
          refine pgood_bind (pgood_pName st₁) fun n st₂ _ => ?_
          refine pgood_bind (ih.expr st₂) fun e st₃ _ => ?_
          refine pgood_bind (pgood_eat .RPAREN (by decide) st₃) fun _ st₄ _ => ?_
          refine pgood_bind (ih.letBinds st₄) fun rest st₅ _ => ?_
          exact pgood_ok_refl st₅ _
    case localE =>
      intro st
      unfold pLocal
      refine pgood_bind (pgood_eat .LPAREN (by decide) st) fun lparen st₁ _ => ?_
      refine pgood_bind (pgood_eat .SYMBOL (by decide) st₁) fun _ st₂ _ => ?_
      refine pgood_bind (pgood_eat .LPAREN (by decide) st₂) fun _ st₃ _ => ?_
      refine pgood_bind (ih.defsSeq st₃) fun defs st₄ _ => ?_
      refine pgood_bind (pgood_eat .RPAREN (by decide) st₄) fun _ st₅ _ => ?_
      refine pgood_bind (ih.expr st₅) fun expr st₆ _ => ?_
      refine pgood_bind (pgood_eat .RPAREN (by decide) st₆) fun rparen st₇ _ => ?_
      exact pgood_ok_refl st₇ _
    case defsSeq =>
      intro st
      unfold pDefinitionsSeq
      split
      · exact pgood_error st .indexError (by simp)
      · split
        · exact pgood_ok_refl st _
        · refine pgood_bind (ih.defn st) fun d st₁ _ => ?_
          refine pgood_bind (ih.defsSeq st₁) fun ds st₂ _ => ?_
          exact pgood_ok_refl st₂ _
    case procApp =>
      intro st
      unfold pProcedureApplication
      refine pgood_bind (pgood_eat .LPAREN (by decide) st) fun lparen st₁ _ => ?_
      refine pgood_bind (ih.exprsSeq st₁) fun exprs st₂ _ => ?_
      refine pgood_bind (pgood_eat .RPAREN (by decide) st₂) fun rparen st₃ _ => ?_
      exact pgood_ok_refl st₃ _
    case exprsSeq =>
      intro st
      unfold pExpressionsSeq
      split
      · exact pgood_error st .indexError (by simp)
      · split
        · exact pgood_ok_refl st _
        · refine pgood_bind (ih.expr st) fun e st₁ _ => ?_
          refine pgood_bind (ih.exprsSeq st₁) fun es st₂ _ => ?_
          exact pgood_ok_refl st₂ _
    case testC =>
      intro st
      unfold pTestCase
      refine pgood_bind (pgood_eat .LPAREN (by decide) st) fun lparen st₁ _ => ?_
      refine pgood_bind (pgood_eat .SYMBOL (by decide) st₁) fun nameTok st₂ _ => ?_
      refine pgood_bind (ih.exprsSeq st₂) fun exprs st₃ _ => ?_
      refine pgood_bind (pgood_eat .RPAREN (by decide) st₃) fun rparen st₄ _ => ?_
      exact pgood_testCaseBuild lparen rparen nameTok exprs st₄
    case libReq =>
      intro st
      unfold pLibraryRequire
      refine pgood_bind (pgood_eat .LPAREN (by decide) st) fun lparen st₁ _ => ?_
      refine pgood_bind (pgood_eat .SYMBOL (by decide) st₁) fun _ st₂ _ => ?_
      refine pgood_bind (pgood_pName st₂) fun lib st₃ _ => ?_
      refine pgood_bind (pgood_eat .RPAREN (by decide) st₃) fun rparen st₄ _ => ?_
      exact pgood_ok_refl st₄ _
    case stmt =>
      intro st cur tl heq hne
      obtain ⟨toks, stack⟩ := st
      have heq2 : toks = cur :: tl := heq
      subst heq2
      simp only [pStatement]
      rw [if_neg hne]
      split
      · exact pgood_error _ _ (by simp)
      · split
        · exact ih.defn _
        · split
          · exact ih.testC _
          · split
            · exact ih.libReq _
            · exact ih.expr _

theorem except_bind_error {α β : Type} (e : PErr) (f : α → Except PErr β) :
    ((Except.error e : Except PErr α) >>= f) = .error e := rfl

theorem except_bind_ok {α β : Type} (a : α) (f : α → Except PErr β) :
    ((Except.ok a : Except PErr α) >>= f) = f a := rfl

theorem pReaderDirective_noUEOF (st : PState) :
    ∀ t, pReaderDirective st ≠ .error (.unexpectedEOFToken t) := by
  intro t h
  unfold pReaderDirective at h
  split at h
  · simp at h
  · rename_i cur tl
    cases he : eat .READER_DIRECTIVE st with
    | error e =>
      rw [he, except_bind_error] at h
      injection h with h
      exact eat_noUEOF _ st t (by rw [he, h])
    | ok p =>
      obtain ⟨tok, st₁⟩ := p
      rw [he, except_bind_ok] at h
      exact absurd h (by simp)

theorem pReaderDirective_ok {st : PState} {node : RNode} {st' : PState}
    (h : pReaderDirective st = .ok (node, st')) :
    ∃ cur tl, st.toks = cur :: tl ∧ cur.type = .READER_DIRECTIVE ∧
      node = .readerDirective cur ∧ st'.toks = tl := by
  unfold pReaderDirective at h
  split at h
  · exact absurd h (by simp)
  · rename_i cur tl heq
    cases he : eat .READER_DIRECTIVE st with
    | error e =>
      rw [he, except_bind_error] at h
      exact absurd h (by simp)
    | ok p =>
      obtain ⟨tok, st₁⟩ := p
      rw [he, except_bind_ok] at h
      have h' : Except.ok ((RNode.readerDirective cur : RNode), st₁) =
          (Except.ok (node, st') : Except PErr (RNode × PState)) := h
      obtain ⟨tl', hts, hty, hst₁⟩ := eat_ok he
      injection h' with h'
      have hn : node = .readerDirective cur := (congrArg Prod.fst h').symm
      have hs : st' = st₁ := (congrArg Prod.snd h').symm
      have hcur : cur = tok := by
        rw [heq] at hts
        exact (List.cons.injEq _ _ _ _ ▸ hts : _ ∧ _).1
      refine ⟨cur, tl, heq, ?_, hn, ?_⟩
      · rw [hcur]; exact hty
      · rw [hs, hst₁]
        rw [heq] at hts
        exact ((List.cons.injEq _ _ _ _ ▸ hts : _ ∧ _).2).symm

/-- The reader-directive accumulator update performed by a consumed prefix
`pre`: the last directive token of `pre` wins, otherwise the previous value is
kept. -/
def lastDirUpdate (pre : List Token) (rd : Option RNode) : Option RNode :=
  match (pre.filter (fun t => t.type = .READER_DIRECTIVE)).getLast? with
  | some t => some (.readerDirective t)
  | none => rd

theorem lastDirUpdate_nil (rd : Option RNode) : lastDirUpdate [] rd = rd := rfl

theorem lastDirUpdate_cons_dir (cur : Token) (hc : cur.type = .READER_DIRECTIVE)
    (pre : List Token) (rd : Option RNode) :
    lastDirUpdate (cur :: pre) rd = lastDirUpdate pre (some (.readerDirective cur)) := by
  unfold lastDirUpdate
  rw [List.filter_cons_of_pos (by simp [hc])]
  cases hfp : pre.filter (fun t => t.type = .READER_DIRECTIVE) with
  | nil => simp
  | cons b l =>
    rw [List.getLast?_cons_cons]
    cases hgl : (b :: l).getLast? with
    | none => exact absurd hgl (by simp)
    | some t => rfl

theorem lastDirUpdate_append_nodir (pre₀ pre₁ : List Token)
    (h : ∀ t ∈ pre₀, t.type ≠ .READER_DIRECTIVE) (rd : Option RNode) :
    lastDirUpdate (pre₀ ++ pre₁) rd = lastDirUpdate pre₁ rd := by
  unfold lastDirUpdate
  rw [List.filter_append, List.filter_eq_nil_iff.mpr (by
    intro t ht
    simp [h t ht]), List.nil_append]

/-- The structure of a successful run of the `Parser.parse` loop: it consumes
an EOF-free prefix and stops at the first EOF token, and the resulting reader
directive is the last directive of the consumed prefix (falling back to the
incoming accumulator). -/
theorem parseLoop_spec : ∀ (fuel : Nat) (st : PState) (rd : Option RNode)
    (stmts : List RNode),
    (∀ t, parseLoop fuel st rd stmts ≠ .error (.unexpectedEOFToken t)) ∧
    (∀ rd' stmts' st', parseLoop fuel st rd stmts = .ok (rd', stmts', st') →
      ∃ pre, st.toks = pre ++ st'.toks ∧ (∀ t ∈ pre, t.type ≠ .EOF) ∧
        rd' = lastDirUpdate pre rd ∧
        ∃ cur tl, st'.toks = cur :: tl ∧ cur.type = .EOF) := by
  intro fuel
  induction fuel with
  | zero =>
    intro st rd stmts
    constructor
    · intro t h
      simp [parseLoop] at h
    · intro rd' stmts' st' h
      simp [parseLoop] at h
  | succ fuel ih =>
    intro st rd stmts
    constructor
    · intro t h
      unfold parseLoop at h
      split at h
      · simp at h
      · rename_i cur tl heq
        split at h
        · simp at h
        · split at h
          · cases he : pReaderDirective st with
            | error e =>
              rw [he, except_bind_error] at h
              injection h with h
              exact pReaderDirective_noUEOF st t (by rw [he, h])
            | ok p =>
              obtain ⟨node, st₁⟩ := p
              rw [he, except_bind_ok] at h
              exact (ih st₁ (some node) stmts).1 t h
          · rename_i hneof hnedir
            cases he : pStatement fuel st with
            | error e =>
              rw [he, except_bind_error] at h
              injection h with h
              have hg := (parserGood fuel).stmt st cur tl heq (by simpa using hneof)
              exact hg.1 t (by rw [he, h])
            | ok p =>
              obtain ⟨node, st₁⟩ := p
              rw [he, except_bind_ok] at h
              exact (ih st₁ rd (stmts ++ [node])).1 t h
    · intro rd' stmts' st' h
      unfold parseLoop at h
      split at h
      · exact absurd h (by simp)
      · rename_i cur tl heq
        split at h
        · rename_i hEOF
          have h' : (Except.ok (rd, stmts, st) :
              Except PErr (Option RNode × List RNode × PState)) = .ok (rd', stmts', st') := h
          injection h' with h'
          have h1 : rd = rd' := congrArg Prod.fst h'
          have h2 : stmts = stmts' := congrArg (fun q => q.2.1) h'
          have h3 : st = st' := congrArg (fun q => q.2.2) h'
          refine ⟨[], by rw [h3]; rfl, by simp, by rw [← h1, lastDirUpdate_nil], ?_⟩
          exact ⟨cur, tl, by rw [← h3, heq], hEOF⟩
        · split at h
          · cases he : pReaderDirective st with
            | error e =>
              rw [he, except_bind_error] at h
              exact absurd h (by simp)
            | ok p =>
              obtain ⟨node, st₁⟩ := p
              rw [he, except_bind_ok] at h
              obtain ⟨cur', tl', heq', hdir', hnode, hst₁⟩ := pReaderDirective_ok he
              obtain ⟨pre₁, hpre₁, hEOFfree, hrd, hfinal⟩ :=
                (ih st₁ (some node) stmts).2 rd' stmts' st' h
              have hcc : cur' = cur ∧ tl' = tl := by
                rw [heq] at heq'
                exact ⟨((List.cons.injEq _ _ _ _ ▸ heq' : _ ∧ _).1).symm,
                  ((List.cons.injEq _ _ _ _ ▸ heq' : _ ∧ _).2).symm⟩
              refine ⟨cur :: pre₁, ?_, ?_, ?_, hfinal⟩
              · rw [heq, ← hcc.2, ← hst₁, hpre₁]
                rfl
              · intro t ht
                rcases List.mem_cons.mp ht with h' | h'
                · rw [h', ← hcc.1]
                  rw [hdir']
                  decide
                · exact hEOFfree t h'
              · rw [lastDirUpdate_cons_dir cur (by rw [← hcc.1]; exact hdir') pre₁ rd]
                rw [hrd, hnode, hcc.1]
          · rename_i hneof hnedir
            cases he : pStatement fuel st with
            | error e =>
              rw [he, except_bind_error] at h
              exact absurd h (by simp)
            | ok p =>
              obtain ⟨node, st₁⟩ := p
              rw [he, except_bind_ok] at h
              have hg := (parserGood fuel).stmt st cur tl heq (by simpa using hneof)
              obtain ⟨pre₀, hpre₀, hfree₀⟩ := hg.2 node st₁ he
              obtain ⟨pre₁, hpre₁, hEOFfree, hrd, hfinal⟩ :=
                (ih st₁ rd (stmts ++ [node])).2 rd' stmts' st' h
              refine ⟨pre₀ ++ pre₁, ?_, ?_, ?_, hfinal⟩
              · rw [hpre₀, hpre₁, List.append_assoc]
              · intro t ht
                rcases List.mem_append.mp ht with h' | h'
                · exact (hfree₀ t h').2
                · exact hEOFfree t h'
              · rw [lastDirUpdate_append_nodir pre₀ pre₁
                  (fun t ht => (hfree₀ t ht).1) rd]
                exact hrd

/-! ### Claims C5, C6 and C1 -/

/-- Classifier for the error claimed (and refuted) by C5. -/
def isUnexpectedEOFErr : Except PErr RNode → Bool
  | .error (.unexpectedEOFToken _) => true
  | _ => false

instance {α β : Type} [DecidableEq α] [DecidableEq β] : DecidableEq (Except α β) :=
  fun a b =>
    match a, b with
    | .ok x, .ok y => if h : x = y then .isTrue (by rw [h]) else .isFalse (by simp [h])
    | .error x, .error y =>
      if h : x = y then .isTrue (by rw [h]) else .isFalse (by simp [h])
    | .ok _, .error _ => .isFalse (by simp)
    | .error _, .ok _ => .isFalse (by simp)

/-- A reader-directive token as the lexer produces it for `#lang racket` at
the start of a file. -/
def dirTokA : Token :=
  { type := .READER_DIRECTIVE, offset := 0, lineno := 1, colno := 1,
    source := "#lang racket" }

/-- A second reader-directive token (`#reader` form, second line). -/
def dirTokB : Token :=
  { type := .READER_DIRECTIVE, offset := 13, lineno := 2, colno := 1,
    source := "#reader racket" }

/-- A left-parenthesis token on the second line. -/
def lparenTokB : Token :=
  { type := .LPAREN, offset := 13, lineno := 2, colno := 0, source := "(" }

/-- Claim C5, counterexample: the claim says that reaching end-of-input while
the open-parenthesis stack is non-empty fails with `UnexpectedEOFToken`; on
the token sequence of `#lang racket` followed by a lone `(`, the parser
instead fails with `IllegalState` carrying the EOF token (`Parser._expression`
falls through all token-type tests; the `UnexpectedEOFTokenError` raise in
`Parser._statement` is unreachable because the parse loop only calls
`_statement` on non-EOF tokens). -/
theorem C5_counterexample_eof_inside_parens :
    parseTokens [dirTokA, lparenTokB, EOF_TOKEN] =
      .error (.illegalState (some EOF_TOKEN)) := by
  decide

/-- Claim C5, amended: the parser never raises `UnexpectedEOFToken` on ANY
finite token sequence — the raise in `Parser._statement` is unreachable
because the parse loop only calls `_statement` on non-EOF tokens; failures
surface instead as the base `ParserError` from a `Parser._eat` token-type
mismatch, `ExpectedReaderDirective`, `UnexpectedRightParenthesis`,
`MismatchedParentheses`, `IllegalState`, or the Python
`IndexError`/`KeyError`/`ValueError` the code can also raise.  WHICH error
end-of-input with a non-empty open-parenthesis stack produces depends on
where the EOF appears: right after `(` the expression dispatch falls through
to `IllegalState` carrying the EOF token (the counterexample above), while
after `(define x 1` it is `Parser._eat(RPAREN)` that meets the EOF token and
raises the base `ParserError` carrying it — proved here concretely. -/
theorem C5_amended_parse_never_raises_unexpected_eof :
    (∀ ts : List Token, isUnexpectedEOFErr (parseTokens ts) = false) ∧
    parseSource "#lang racket\n(define x 1" =
      .error (.parserError EOF_TOKEN) := by
  constructor
  · intro ts
    unfold parseTokens
    split
    · rfl
    · rename_i first rest
      cases hl : parseLoop (8 * (first :: rest).length + 32)
          { toks := first :: rest, lparenStack := [] } none [] with
      | error e =>
        rw [except_bind_error]
        cases e <;> first
          | rfl
          | exact absurd hl ((parseLoop_spec _ _ _ _).1 _)
      | ok triple =>
        obtain ⟨rd, stmts, stF⟩ := triple
        rw [except_bind_ok]
        show isUnexpectedEOFErr (parseFinish first rd stmts) = false
        unfold parseFinish
        split <;> rfl
  · decide

/-- Claim C6, counterexample: the claim says the first reader directive wins;
on a token sequence holding two directives, `Parser.parse` returns a program
whose `reader_directive` is built from the second (last) one — line 61 of
parser.py overwrites `reader_directive` on every directive token. -/
theorem C6_counterexample_last_directive_wins :
    parseTokens [dirTokA, dirTokB, EOF_TOKEN] =
      .ok (.program dirTokA (.readerDirective dirTokB) .nil) ∧ dirTokB ≠ dirTokA := by
  constructor
  · decide
  · decide

/-- Claim C6, amended: whenever `Parser.parse` returns a program, that
program's `reader_directive` is built from the LAST reader-directive token
occurring before the first EOF token of the input (so inputs without any
directive token never parse successfully, and the second half of the original
claim — no directive ⇒ `ExpectedReaderDirective` when the statements parse —
follows for inputs that reach the end of the loop). -/
theorem takeWhile_append_stop (p : Token → Bool) (pre : List Token) (cur : Token)
    (tl : List Token) (hpre : ∀ t ∈ pre, p t = true) (hcur : p cur = false) :
    (pre ++ cur :: tl).takeWhile p = pre := by
  induction pre with
  | nil => simp [List.takeWhile_cons, hcur]
  | cons a l ihl =>
    simp only [List.cons_append, List.takeWhile_cons, hpre a (by simp)]
    rw [ihl (fun t ht => hpre t (List.mem_cons_of_mem a ht))]
    simp

theorem C6_amended_last_directive_wins : ∀ (ts : List Token) (prog : RNode),
    parseTokens ts = .ok prog →
    ∃ first rdTok stmts, prog = .program first (.readerDirective rdTok) stmts ∧
      ((ts.takeWhile (fun t => t.type ≠ .EOF)).filter
        (fun t => t.type = .READER_DIRECTIVE)).getLast? = some rdTok := by
  intro ts prog h
  unfold parseTokens at h
  split at h
  · exact absurd h (by simp)
  · rename_i first rest
    cases hl : parseLoop (8 * (first :: rest).length + 32)
        { toks := first :: rest, lparenStack := [] } none [] with
    | error e =>
      rw [hl, except_bind_error] at h
      exact absurd h (by simp)
    | ok triple =>
      obtain ⟨rd, stmts, stF⟩ := triple
      rw [hl, except_bind_ok] at h
      obtain ⟨pre, hpre, hEOFfree, hrd, cur, tl, hstF, hcur⟩ :=
        (parseLoop_spec _ _ _ _).2 rd stmts stF hl
      have h' : parseFinish first rd stmts = .ok prog := h
      unfold parseFinish at h'
      split at h'
      · exact absurd h' (by simp)
      · rename_i rdNode
        have hprog : prog = .program first rdNode (NodeList.ofList stmts) := by
          injection h' with h'
          exact h'.symm
        have hpre' : first :: rest = pre ++ stF.toks := hpre
        have htw : (first :: rest).takeWhile (fun t => t.type ≠ .EOF) = pre := by
          rw [hpre', hstF]
          exact takeWhile_append_stop _ pre cur tl
            (fun t ht => by simpa using hEOFfree t ht) (by simp [hcur])
        unfold lastDirUpdate at hrd
        cases hgl : (pre.filter (fun t => t.type = .READER_DIRECTIVE)).getLast? with
        | none =>
          rw [hgl] at hrd
          exact absurd hrd (by simp)
        | some t =>
          rw [hgl] at hrd
          have hrdNode : rdNode = .readerDirective t := by
            injection hrd with hrd
          refine ⟨first, t, NodeList.ofList stmts, ?_, ?_⟩
          · rw [hprog, hrdNode]
          · rw [htw]
            exact hgl

/-- Witness for the amended C6 at the two-directive counterexample input. -/
theorem C6_amended_last_directive_wins_witness :
    ∃ first rdTok stmts,
      (RNode.program dirTokA (.readerDirective dirTokB) .nil : RNode) =
        .program first (.readerDirective rdTok) stmts ∧
      (([dirTokA, dirTokB, EOF_TOKEN].takeWhile (fun t => t.type ≠ .EOF)).filter
        (fun t => t.type = .READER_DIRECTIVE)).getLast? = some rdTok :=
  C6_amended_last_directive_wins [dirTokA, dirTokB, EOF_TOKEN]
    (.program dirTokA (.readerDirective dirTokB) .nil) (by decide)

/-- The source program of claim C1's failing input. -/
def structSource : String := "#lang racket\n(define-struct posn (x y))"

/-- A sample heap address for the interpolated object repr (the address is
arbitrary; any run of hexadecimal digits lexes the same way). -/
def addrSample : String := "0x7f95b1c2d3e0"

/-- The text `Stringifier.visit` produces for `structSource`. -/
def structStringified : String :=
  "#lang racket\n(define-struct <mracket.reader.syntax.RacketNameNode object at 0x7f95b1c2d3e0> (x y))"

/-- Claim C1 (code bug): `stringify(parse(tokenize(s)))` is NOT itself
parseable when `s` contains a `define-struct` form —
`Stringifier.visit_structure_definition_node` (stringify.py line 20)
interpolates the `RacketNameNode` object itself instead of its source, so the
output contains the object's default repr, which re-tokenizes as four symbols
and makes re-parsing fail with the base `ParserError` at the symbol `object`.
The repository's own test (`test_stringify` in reader_integration_test.py)
asserts this very program round-trips, and the spec (§4.4) requires
`(define-struct <name> (<field>…))`, so the code, not the claim, is wrong. -/
theorem C1_structure_definition_breaks_round_trip :
    (parseSource structSource).map (stringifyNode addrSample) =
      .ok structStringified ∧
    parseSource structStringified =
      .error (.parserError (Token.mk .SYMBOL 66 2 53 "object")) := by
  constructor
  · decide
  · decide

/-! ## Mutations (mutation/__init__.py) -/

/-- `mutation.Mutation` (mutation/__init__.py): a frozen dataclass holding the
node to replace, its replacement, and an explanation string. -/
structure Mutation where
  original : RNode
  replacement : RNode
  explanation : String
  deriving DecidableEq, Repr

/-- `Token.from_source` (lexer.py lines 183-192): a non-positional token. -/
def Token.from_source (token_type : TokenType) (source : String) : Token :=
  { type := token_type, offset := -1, lineno := -1, colno := -1, source := source }

/-- Lookup in a Python `dict` modelled as an association list with unique keys
(`d[k]` / `d.get(k)` / `k in d`). -/
def alistGet {γ : Type} : List (String × γ) → String → Option γ
  | [], _ => none
  | (k, v) :: rest, s => if k = s then some v else alistGet rest s

/-! ## The mutation generators (mutation/generator/) -/

/-- `ProcedureReplacement.visit_procedure_application_node`
(procedure_replacement.py lines 15-42), composed with the `MutationGenerator`
base visitor (generator/base.py) whose every other `visit_*_node` yields
nothing: the generator's `visit` on an arbitrary node.  The
`Mapping[str, set[str]]` of replacement names is modelled as an association
list of lists in iteration order.  Note `original=node` — the whole
application node — and `replacement` a rebuilt application whose head is a
fresh `Name` from `Token.from_source`. -/
def procReplacementVisit (replacements : List (String × List String))
    (node : RNode) : List Mutation :=
  match node with
  | .procedureApplication lparen rparen (.cons procedure rest) =>
    if procedure.token.type = .SYMBOL then
      match alistGet replacements procedure.token.source with
      | some reps =>
        reps.map fun replacement =>
          { original := .procedureApplication lparen rparen (.cons procedure rest)
            replacement := .procedureApplication DUMMY_TOKEN DUMMY_TOKEN
              (.cons (.name (Token.from_source .SYMBOL replacement)) rest)
            explanation := "Replace procedure " ++ procedure.token.source ++
              " at line " ++ toString procedure.token.lineno ++
              ", column " ++ toString procedure.token.colno ++
              " with " ++ replacement }
      | none => []
    else []
  | _ => []

/-- The heap address the class-level `Stringifier` of
`ProcedureApplicationReplacement` would print for a structure-definition node
inside a replacement expression (it never matters for replacements built from
ordinary expressions). -/
def parAddr : String := "0x0"

/-- `ProcedureApplicationReplacement.visit_procedure_application_node`
(procedure_application_replacement.py lines 27-49), composed with the base
visitor; `__init__` has already parsed each replacement source into an
expression node, so the mapping carries nodes. -/
def procAppReplacementVisit (replacements : List (String × List RNode))
    (node : RNode) : List Mutation :=
  match node with
  | .procedureApplication lparen rparen (.cons procedure rest) =>
    if procedure.token.type = .SYMBOL then
      match alistGet replacements procedure.token.source with
      | some newNodes =>
        newNodes.map fun newNode =>
          { original := .procedureApplication lparen rparen (.cons procedure rest)
            replacement := newNode
            explanation := "Replace procedure application of " ++
              procedure.token.source ++
              " at line " ++ toString procedure.token.lineno ++
              ", column " ++ toString procedure.token.colno ++
              " with " ++ stringifyNode parAddr newNode }
      | none => []
    else []
  | _ => []

/-- A configured mutation generator: one of the two concrete generators of
mutation/generator/. -/
inductive GenConfig where
  | procReplacement (replacements : List (String × List String))
  | procAppReplacement (replacements : List (String × List RNode))

/-- `generator.visit(node)` for a configured generator. -/
def genVisit : GenConfig → RNode → List Mutation
  | .procReplacement reps, node => procReplacementVisit reps node
  | .procAppReplacement reps, node => procAppReplacementVisit reps node

/-! ## The mutator (mutation/mutator.py) -/

/-- A `Mutator` (mutator.py `__init__`): its generator list and its
`name_specific_mutators` mapping of sub-mutators keyed by defined name. -/
inductive MutatorCfg where
  | mk (generators : List GenConfig)
      (name_specific_mutators : List (String × MutatorCfg))

def MutatorCfg.generators : MutatorCfg → List GenConfig
  | .mk g _ => g

def MutatorCfg.name_specific_mutators : MutatorCfg → List (String × MutatorCfg)
  | .mk _ n => n

/-- The first phase of `Mutator.visit` (mutator.py lines 27-30): run every
generator on the node, in order. -/
def gensOn (cfg : MutatorCfg) (n : RNode) : List Mutation :=
  cfg.generators.flatMap fun g => genVisit g n

/-- `Mutator.visit_name_definition_node` (mutator.py lines 45-57): the mutator
that visits the definition's expression — the name-specific sub-mutator when
`node.name.token.source` is a key of `name_specific_mutators`, the mutator
itself otherwise.  (Both branches visit `node.name` with `self`.) -/
def subMutatorFor (cfg : MutatorCfg) (nm : RNode) : MutatorCfg :=
  match alistGet cfg.name_specific_mutators nm.token.source with
  | some sub => sub
  | none => cfg

mutual
/-- `Mutator.visit` (mutator.py lines 27-32): yield every generator's
mutations for the node, then dispatch `node.accept_visitor(self)`, which
recurses into exactly the children enumerated by the `visit_*_node` methods.
`visit_reader_directive_node`, `visit_literal_node` and `visit_name_node`
yield nothing (leaves); `visit_test_case_node` and
`visit_library_require_node` (mutator.py lines 101-109) yield nothing AND do
not recurse into their children. -/
def mutatorVisit (cfg : MutatorCfg) : RNode → List Mutation
  | .program t rd stmts =>
    gensOn cfg (.program t rd stmts) ++
      (mutatorVisit cfg rd ++ mutatorVisitList cfg stmts)
  | .readerDirective t => gensOn cfg (.readerDirective t)
  | .nameDefinition lp rp nm e =>
    gensOn cfg (.nameDefinition lp rp nm e) ++
      (mutatorVisit cfg nm ++ mutatorVisit (subMutatorFor cfg nm) e)
  | .structureDefinition lp rp nm fs =>
    gensOn cfg (.structureDefinition lp rp nm fs) ++
      (mutatorVisit cfg nm ++ mutatorVisitList cfg fs)
  | .literal t => gensOn cfg (.literal t)
  | .name t => gensOn cfg (.name t)
  | .cond lp rp brs =>
    gensOn cfg (.cond lp rp brs) ++ mutatorVisitPairs cfg brs
  | .lambda lp rp vs e =>
    gensOn cfg (.lambda lp rp vs e) ++
      (mutatorVisitList cfg vs ++ mutatorVisit cfg e)
  | .letNode lp rp ty binds e =>
    gensOn cfg (.letNode lp rp ty binds e) ++
      (mutatorVisitPairs cfg binds ++ mutatorVisit cfg e)
  | .localNode lp rp ds e =>
    gensOn cfg (.localNode lp rp ds e) ++
      (mutatorVisitList cfg ds ++ mutatorVisit cfg e)
  | .procedureApplication lp rp es =>
    gensOn cfg (.procedureApplication lp rp es) ++ mutatorVisitList cfg es
  | .testCase lp rp ty es => gensOn cfg (.testCase lp rp ty es)
  | .libraryRequire lp rp lib => gensOn cfg (.libraryRequire lp rp lib)

/-- `for child in …: for mut in self.visit(child): yield mut` over a
list-valued child slot. -/
def mutatorVisitList (cfg : MutatorCfg) : NodeList → List Mutation
  | .nil => []
  | .cons n rest => mutatorVisit cfg n ++ mutatorVisitList cfg rest

/-- The same over `itertools.chain.from_iterable` of a list of pairs
(cond branches, let bindings). -/
def mutatorVisitPairs (cfg : MutatorCfg) : PairList → List Mutation
  | .nil => []
  | .cons a b rest =>
    mutatorVisit cfg a ++ (mutatorVisit cfg b ++ mutatorVisitPairs cfg rest)
end

/-- `Mutator.generate_mutations` (mutator.py lines 24-25). -/
def generate_mutations (cfg : MutatorCfg) (program : RNode) : List Mutation :=
  mutatorVisit cfg program

/-! ## The mutation applier (mutation/applier.py) -/

/-- `MutationApplier._get_mutations` (applier.py lines 201-204).  Python
compares with `is` (object identity); the model uses structural equality,
which coincides with identity whenever the nodes reachable from the program
are pairwise distinct — the hypothesis under which the applier claims are
read, and true of the concrete programs below since every token records its
offset. -/
def get_mutations (mutations : List Mutation) (node : RNode) : List Mutation :=
  mutations.filter fun m => decide (m.original = node)

mutual
/-- The mutations carried by the `Mutant`s that `MutationApplier.visit` yields
on a node (each yielded `Mutant` pairs one matched mutation with a stringified
program, so counting yielded mutants is counting these).  Replaceable slots
yield one `Mutant` per matching mutation — EXCEPT that `visit_cond_node`
(applier.py lines 97-109) replaces condition and branch-expression slots
without ever yielding, and likewise the variable loop of `visit_lambda_node`
(lines 111-125), the binding loops of `visit_let_node` (lines 127-148) and the
definition loop of `visit_local_node` (lines 150-162).  Afterwards each method
recurses into the restored children. -/
def applierYields (muts : List Mutation) : RNode → List Mutation
  | .program _ rd stmts =>
    get_mutations muts rd ++ applierSlotYields muts stmts ++
      (applierYields muts rd ++ applierYieldsList muts stmts)
  | .readerDirective _ => []
  | .nameDefinition _ _ nm e =>
    get_mutations muts nm ++ get_mutations muts e ++
      (applierYields muts nm ++ applierYields muts e)
  | .structureDefinition _ _ nm fs =>
    get_mutations muts nm ++ applierSlotYields muts fs ++
      (applierYields muts nm ++ applierYieldsList muts fs)
  | .literal _ => []
  | .name _ => []
  | .cond _ _ brs => applierYieldsPairs muts brs
  | .lambda _ _ vs e =>
    get_mutations muts e ++ (applierYieldsList muts vs ++ applierYields muts e)
  | .letNode _ _ _ binds e =>
    get_mutations muts e ++
      (applierYieldsPairs muts binds ++ applierYields muts e)
  | .localNode _ _ ds e =>
    get_mutations muts e ++ (applierYieldsList muts ds ++ applierYields muts e)
  | .procedureApplication _ _ es =>
    applierSlotYields muts es ++ applierYieldsList muts es
  | .testCase _ _ _ es =>
    applierSlotYields muts es ++ applierYieldsList muts es
  | .libraryRequire _ _ lib => get_mutations muts lib ++ applierYields muts lib

/-- The per-index yield loop over a list-valued slot (statements, fields,
expressions): `for i, child in enumerate(…): for mut in
self._get_mutations(child): … yield mutation.Mutant(mut, …)`. -/
def applierSlotYields (muts : List Mutation) : NodeList → List Mutation
  | .nil => []
  | .cons n rest => get_mutations muts n ++ applierSlotYields muts rest

def applierYieldsList (muts : List Mutation) : NodeList → List Mutation
  | .nil => []
  | .cons n rest => applierYields muts n ++ applierYieldsList muts rest

def applierYieldsPairs (muts : List Mutation) : PairList → List Mutation
  | .nil => []
  | .cons a b rest =>
    applierYields muts a ++ (applierYields muts b ++ applierYieldsPairs muts rest)
end

/-- `MutationApplier.apply_mutations` (applier.py lines 27-28), counted by the
mutations its yielded `Mutant`s carry. -/
def apply_mutations (program : RNode) (mutations : List Mutation) :
    List Mutation :=
  applierYields mutations program

/-! ## Reachability, visiting order, and sizes -/

mutual
/-- All nodes reachable from a node (the node itself included), preorder. -/
def RNode.nodes : RNode → List RNode
  | .program t rd stmts =>
    .program t rd stmts :: (rd.nodes ++ NodeList.nodesOf stmts)
  | .readerDirective t => [.readerDirective t]
  | .nameDefinition lp rp nm e =>
    .nameDefinition lp rp nm e :: (nm.nodes ++ e.nodes)
  | .structureDefinition lp rp nm fs =>
    .structureDefinition lp rp nm fs :: (nm.nodes ++ NodeList.nodesOf fs)
  | .literal t => [.literal t]
  | .name t => [.name t]
  | .cond lp rp brs => .cond lp rp brs :: PairList.nodesOf brs
  | .lambda lp rp vs e =>
    .lambda lp rp vs e :: (NodeList.nodesOf vs ++ e.nodes)
  | .letNode lp rp ty binds e =>
    .letNode lp rp ty binds e :: (PairList.nodesOf binds ++ e.nodes)
  | .localNode lp rp ds e =>
    .localNode lp rp ds e :: (NodeList.nodesOf ds ++ e.nodes)
  | .procedureApplication lp rp es =>
    .procedureApplication lp rp es :: NodeList.nodesOf es
  | .testCase lp rp ty es => .testCase lp rp ty es :: NodeList.nodesOf es
  | .libraryRequire lp rp lib => .libraryRequire lp rp lib :: lib.nodes

def NodeList.nodesOf : NodeList → List RNode
  | .nil => []
  | .cons n rest => n.nodes ++ NodeList.nodesOf rest

def PairList.nodesOf : PairList → List RNode
  | .nil => []
  | .cons a b rest => a.nodes ++ (b.nodes ++ PairList.nodesOf rest)
end

/-- The direct AST children of a node, in the order the `visit_*_node`
methods of `RacketASTVisitor` consumers enumerate them. -/
def childList : RNode → List RNode
  | .program _ rd stmts => rd :: stmts.toList
  | .readerDirective _ => []
  | .nameDefinition _ _ nm e => [nm, e]
  | .structureDefinition _ _ nm fs => nm :: fs.toList
  | .literal _ => []
  | .name _ => []
  | .cond _ _ brs => brs.toList.flatMap fun b => [b.1, b.2]
  | .lambda _ _ vs e => vs.toList ++ [e]
  | .letNode _ _ _ binds e =>
    (binds.toList.flatMap fun b => [b.1, b.2]) ++ [e]
  | .localNode _ _ ds e => ds.toList ++ [e]
  | .procedureApplication _ _ es => es.toList
  | .testCase _ _ _ es => es.toList
  | .libraryRequire _ _ lib => [lib]

/-- Whether a node is a test case or a library require — the two variants
whose `Mutator` visitors neither yield nor recurse. -/
def isTestOrRequire : RNode → Bool
  | .testCase .. => true
  | .libraryRequire .. => true
  | _ => false

/-- Whether a node is a procedure application — the only variant on which
either concrete generator can yield. -/
def isProcApp : RNode → Bool
  | .procedureApplication .. => true
  | _ => false

/-- The children into which `Mutator.visit` recurses: all AST children,
except that test-case and library-require nodes are not entered. -/
def mchildList (n : RNode) : List RNode :=
  if isTestOrRequire n then [] else childList n

mutual
/-- The nodes on which `Mutator.visit` runs the generators when started at a
root: the root, and recursively the `mchildList` children. -/
def RNode.mvisited : RNode → List RNode
  | .program t rd stmts =>
    .program t rd stmts :: (rd.mvisited ++ NodeList.mvisitedOf stmts)
  | .readerDirective t => [.readerDirective t]
  | .nameDefinition lp rp nm e =>
    .nameDefinition lp rp nm e :: (nm.mvisited ++ e.mvisited)
  | .structureDefinition lp rp nm fs =>
    .structureDefinition lp rp nm fs :: (nm.mvisited ++ NodeList.mvisitedOf fs)
  | .literal t => [.literal t]
  | .name t => [.name t]
  | .cond lp rp brs => .cond lp rp brs :: PairList.mvisitedOf brs
  | .lambda lp rp vs e =>
    .lambda lp rp vs e :: (NodeList.mvisitedOf vs ++ e.mvisited)
  | .letNode lp rp ty binds e =>
    .letNode lp rp ty binds e :: (PairList.mvisitedOf binds ++ e.mvisited)
  | .localNode lp rp ds e =>
    .localNode lp rp ds e :: (NodeList.mvisitedOf ds ++ e.mvisited)
  | .procedureApplication lp rp es =>
    .procedureApplication lp rp es :: NodeList.mvisitedOf es
  | .testCase lp rp ty es => [.testCase lp rp ty es]
  | .libraryRequire lp rp lib => [.libraryRequire lp rp lib]

def NodeList.mvisitedOf : NodeList → List RNode
  | .nil => []
  | .cons n rest => n.mvisited ++ NodeList.mvisitedOf rest

def PairList.mvisitedOf : PairList → List RNode
  | .nil => []
  | .cons a b rest => a.mvisited ++ (b.mvisited ++ PairList.mvisitedOf rest)
end

/-! Characterizations of `nodes` and `mvisited` through `childList`. -/

theorem nodesOf_eq : ∀ l : NodeList,
    NodeList.nodesOf l = l.toList.flatMap RNode.nodes
  | .nil => rfl
  | .cons n rest => by
    simp [NodeList.nodesOf, NodeList.toList, nodesOf_eq rest]

theorem pairNodesOf_eq : ∀ l : PairList,
    PairList.nodesOf l =
      (l.toList.flatMap fun b => [b.1, b.2]).flatMap RNode.nodes
  | .nil => rfl
  | .cons a b rest => by
    simp [PairList.nodesOf, PairList.toList, pairNodesOf_eq rest]

theorem nodes_eq (n : RNode) :
    RNode.nodes n = n :: (childList n).flatMap RNode.nodes := by
  cases n <;>
    simp [RNode.nodes, childList, nodesOf_eq, pairNodesOf_eq]

theorem mvisitedOf_eq : ∀ l : NodeList,
    NodeList.mvisitedOf l = l.toList.flatMap RNode.mvisited
  | .nil => rfl
  | .cons n rest => by
    simp [NodeList.mvisitedOf, NodeList.toList, mvisitedOf_eq rest]

theorem pairMvisitedOf_eq : ∀ l : PairList,
    PairList.mvisitedOf l =
      (l.toList.flatMap fun b => [b.1, b.2]).flatMap RNode.mvisited
  | .nil => rfl
  | .cons a b rest => by
    simp [PairList.mvisitedOf, PairList.toList, pairMvisitedOf_eq rest]

theorem mvisited_eq (n : RNode) :
    RNode.mvisited n = n :: (mchildList n).flatMap RNode.mvisited := by
  cases n <;>
    simp [RNode.mvisited, mchildList, isTestOrRequire, childList,
      mvisitedOf_eq, pairMvisitedOf_eq]

theorem mchild_sub (n : RNode) : ∀ c ∈ mchildList n, c ∈ childList n := by
  intro c hc
  rw [mchildList] at hc
  rcases h : isTestOrRequire n with _ | _
  · rwa [if_neg (by simp [h])] at hc
  · rw [if_pos h] at hc; simp at hc

/-! Size lemmas. -/

theorem sizeOf_mem_nl : ∀ (l : NodeList) (n : RNode),
    n ∈ l.toList → sizeOf n < sizeOf l
  | .nil, n, h => by simp [NodeList.toList] at h
  | .cons a rest, n, h => by
    rcases List.mem_cons.mp (by simpa [NodeList.toList] using h) with h | h
    · subst h; simp; try omega
    · have := sizeOf_mem_nl rest n h
      simp; try omega

theorem sizeOf_mem_pl : ∀ (l : PairList) (a b : RNode), (a, b) ∈ l.toList →
    sizeOf a < sizeOf l ∧ sizeOf b < sizeOf l
  | .nil, a, b, h => by simp [PairList.toList] at h
  | .cons x y rest, a, b, h => by
    rcases (by simpa [PairList.toList] using h :
        (a = x ∧ b = y) ∨ (a, b) ∈ rest.toList) with ⟨h1, h2⟩ | h
    · subst h1; subst h2; constructor <;> (simp; try omega)
    · have := sizeOf_mem_pl rest a b h
      constructor <;> (simp; try omega)

theorem RNode.sizeOf_pos (n : RNode) : 0 < sizeOf n := by
  cases n <;> (simp; try omega)

theorem sizeOf_childList : ∀ (p : RNode) (c : RNode),
    c ∈ childList p → sizeOf c < sizeOf p := by
  intro p c hc
  cases p with
  | program t rd stmts =>
    rcases (by simpa [childList] using hc : c = rd ∨ c ∈ stmts.toList) with h | h
    · subst h; simp; try omega
    · have := sizeOf_mem_nl stmts c h; simp; try omega
  | readerDirective t => simp [childList] at hc
  | nameDefinition lp rp nm e =>
    rcases (by simpa [childList] using hc : c = nm ∨ c = e) with h | h <;>
      (subst h; simp; try omega)
  | structureDefinition lp rp nm fs =>
    rcases (by simpa [childList] using hc : c = nm ∨ c ∈ fs.toList) with h | h
    · subst h; simp; try omega
    · have := sizeOf_mem_nl fs c h; simp; try omega
  | literal t => simp [childList] at hc
  | name t => simp [childList] at hc
  | cond lp rp brs =>
    rw [childList, List.mem_flatMap] at hc
    obtain ⟨⟨a, b⟩, hab, hcab⟩ := hc
    have := sizeOf_mem_pl brs a b hab
    rcases (by simpa using hcab : c = a ∨ c = b) with h | h <;>
      (subst h; simp; try omega)
  | lambda lp rp vs e =>
    rcases (by simpa [childList] using hc : c ∈ vs.toList ∨ c = e) with h | h
    · have := sizeOf_mem_nl vs c h; simp; try omega
    · subst h; simp; try omega
  | letNode lp rp ty binds e =>
    rw [childList, List.mem_append] at hc
    rcases hc with h | h
    · rw [List.mem_flatMap] at h
      obtain ⟨⟨a, b⟩, hab, hcab⟩ := h
      have := sizeOf_mem_pl binds a b hab
      rcases (by simpa using hcab : c = a ∨ c = b) with h | h <;>
        (subst h; simp; try omega)
    · rcases (by simpa using h : c = e) with h
      subst h; simp; try omega
  | localNode lp rp ds e =>
    rcases (by simpa [childList] using hc : c ∈ ds.toList ∨ c = e) with h | h
    · have := sizeOf_mem_nl ds c h; simp; try omega
    · subst h; simp; try omega
  | procedureApplication lp rp es =>
    have := sizeOf_mem_nl es c (by simpa [childList] using hc)
    simp; try omega
  | testCase lp rp ty es =>
    have := sizeOf_mem_nl es c (by simpa [childList] using hc)
    simp; try omega
  | libraryRequire lp rp lib =>
    rcases (by simpa [childList] using hc : c = lib)
    simp; try omega

/-! Generic list lemmas about `Nodup` and `flatMap`. -/

theorem nodup_of_flatMap {α β : Type} (f : α → List β) :
    ∀ l : List α, (l.flatMap f).Nodup → ∀ a ∈ l, (f a).Nodup := by
  intro l
  induction l with
  | nil => simp
  | cons x rest ih =>
    intro h a ha
    rw [List.flatMap_cons, List.nodup_append] at h
    rcases List.mem_cons.mp ha with h1 | h1
    · subst h1; exact h.1
    · exact ih h.2.1 a h1

theorem flatMap_mem_unique {α β : Type} (f : α → List β) :
    ∀ l : List α, (l.flatMap f).Nodup →
      ∀ a ∈ l, ∀ b ∈ l, ∀ x, x ∈ f a → x ∈ f b → a = b := by
  intro l
  induction l with
  | nil => simp
  | cons y rest ih =>
    intro h a ha b hb x hxa hxb
    rw [List.flatMap_cons, List.nodup_append] at h
    rcases List.mem_cons.mp ha with h1 | h1 <;>
      rcases List.mem_cons.mp hb with h2 | h2
    · rw [h1, h2]
    · subst h1
      exact absurd (List.mem_flatMap.mpr ⟨b, h2, hxb⟩) (h.2.2 hxa)
    · subst h2
      exact absurd (List.mem_flatMap.mpr ⟨a, h1, hxa⟩) (h.2.2 hxb)
    · exact ih h.2.1 a h1 b h2 x hxa hxb

/-! Structural facts proved by strong induction on the node size. -/

theorem sizeOf_nodes_le_aux : ∀ (sz : Nat) (p : RNode), sizeOf p ≤ sz →
    ∀ x ∈ RNode.nodes p, sizeOf x ≤ sizeOf p := by
  intro sz
  induction sz with
  | zero => intro p hp; have := RNode.sizeOf_pos p; omega
  | succ sz ih =>
    intro p hp x hx
    rw [nodes_eq] at hx
    rcases List.mem_cons.mp hx with h | h
    · subst h; exact le_rfl
    · rw [List.mem_flatMap] at h
      obtain ⟨c, hc, hxc⟩ := h
      have hlt := sizeOf_childList p c hc
      have := ih c (by omega) x hxc
      omega

theorem sizeOf_nodes_le (p x : RNode) (h : x ∈ RNode.nodes p) :
    sizeOf x ≤ sizeOf p :=
  sizeOf_nodes_le_aux (sizeOf p) p le_rfl x h

theorem nodes_trans_aux : ∀ (sz : Nat) (p : RNode), sizeOf p ≤ sz →
    ∀ t ∈ RNode.nodes p, ∀ x ∈ RNode.nodes t, x ∈ RNode.nodes p := by
  intro sz
  induction sz with
  | zero => intro p hp; have := RNode.sizeOf_pos p; omega
  | succ sz ih =>
    intro p hp t ht x hx
    rw [nodes_eq] at ht
    rcases List.mem_cons.mp ht with h | h
    · subst h; exact hx
    · rw [List.mem_flatMap] at h
      obtain ⟨c, hc, htc⟩ := h
      have hlt := sizeOf_childList p c hc
      have := ih c (by omega) t htc x hx
      rw [nodes_eq]
      exact List.mem_cons_of_mem _ (List.mem_flatMap.mpr ⟨c, hc, this⟩)

theorem nodes_trans (p t x : RNode) (ht : t ∈ RNode.nodes p)
    (hx : x ∈ RNode.nodes t) : x ∈ RNode.nodes p :=
  nodes_trans_aux (sizeOf p) p le_rfl t ht x hx

theorem mvisited_sub_nodes_aux : ∀ (sz : Nat) (p : RNode), sizeOf p ≤ sz →
    ∀ x ∈ RNode.mvisited p, x ∈ RNode.nodes p := by
  intro sz
  induction sz with
  | zero => intro p hp; have := RNode.sizeOf_pos p; omega
  | succ sz ih =>
    intro p hp x hx
    rw [mvisited_eq] at hx
    rcases List.mem_cons.mp hx with h | h
    · subst h; rw [nodes_eq]; exact List.mem_cons_self _ _
    · rw [List.mem_flatMap] at h
      obtain ⟨c, hc, hxc⟩ := h
      have hcc := mchild_sub p c hc
      have hlt := sizeOf_childList p c hcc
      have := ih c (by omega) x hxc
      rw [nodes_eq]
      exact List.mem_cons_of_mem _ (List.mem_flatMap.mpr ⟨c, hcc, this⟩)

theorem mvisited_sub_nodes (p x : RNode) (h : x ∈ RNode.mvisited p) :
    x ∈ RNode.nodes p :=
  mvisited_sub_nodes_aux (sizeOf p) p le_rfl x h

theorem nodup_child (p : RNode) (h : (RNode.nodes p).Nodup) :
    ∀ c ∈ childList p, (RNode.nodes c).Nodup := by
  intro c hc
  rw [nodes_eq] at h
  exact nodup_of_flatMap RNode.nodes (childList p) h.of_cons c hc

/-- The key geometric fact: in a duplicate-free program, every node the
`Mutator` visits that lies inside the subtree of a test-case or
library-require node must be that node itself (the mutator stops there and
does not descend). -/
theorem mvisited_outside_tests_aux : ∀ (sz : Nat) (p : RNode), sizeOf p ≤ sz →
    (RNode.nodes p).Nodup →
    ∀ t ∈ RNode.nodes p, isTestOrRequire t = true →
    ∀ k ∈ RNode.mvisited p, k ∈ RNode.nodes t → k = t := by
  intro sz
  induction sz with
  | zero => intro p hp; have := RNode.sizeOf_pos p; omega
  | succ sz ih =>
    intro p hp hnd t ht hTR k hk hkt
    rw [nodes_eq] at ht
    rw [mvisited_eq] at hk
    rcases List.mem_cons.mp ht with ht | ht
    · subst ht
      rcases List.mem_cons.mp hk with hk | hk
      · exact hk
      · rw [mchildList, if_pos hTR] at hk
        simp at hk
    · rw [List.mem_flatMap] at ht
      obtain ⟨c, hc, htc⟩ := ht
      rcases List.mem_cons.mp hk with hk | hk
      · subst hk
        have h1 := sizeOf_nodes_le t k hkt
        have h2 := sizeOf_nodes_le c t htc
        have h3 := sizeOf_childList k c hc
        omega
      · rw [List.mem_flatMap] at hk
        obtain ⟨d, hd, hkd⟩ := hk
        have hdc : d ∈ childList p := mchild_sub p d hd
        have hknd : k ∈ RNode.nodes d := mvisited_sub_nodes d k hkd
        have hknc : k ∈ RNode.nodes c := nodes_trans c t k htc hkt
        have hnd' : ((childList p).flatMap RNode.nodes).Nodup := by
          rw [nodes_eq] at hnd
          exact hnd.of_cons
        have hdceq : d = c :=
          flatMap_mem_unique RNode.nodes (childList p) hnd' d hdc c hc k hknd hknc
        subst hdceq
        have hltd := sizeOf_childList p d hdc
        exact ih d (by omega) (nodup_child p hnd d hdc) t htc hTR k hkd hkt

theorem mvisited_outside_tests (p : RNode) (hnd : (RNode.nodes p).Nodup)
    (t : RNode) (ht : t ∈ RNode.nodes p) (hTR : isTestOrRequire t = true)
    (k : RNode) (hk : k ∈ RNode.mvisited p) (hkt : k ∈ RNode.nodes t) :
    k = t :=
  mvisited_outside_tests_aux (sizeOf p) p le_rfl hnd t ht hTR k hk hkt

/-! What the generators can yield. -/

theorem procReplacementVisit_original (reps : List (String × List String))
    (n : RNode) (m : Mutation) (h : m ∈ procReplacementVisit reps n) :
    m.original = n ∧ isProcApp n = true := by
  cases n
  case procedureApplication lp rp es =>
    cases es with
    | nil => simp [procReplacementVisit] at h
    | cons procedure rest =>
      simp only [procReplacementVisit] at h
      split at h
      · split at h
        · rw [List.mem_map] at h
          obtain ⟨r, _, hm⟩ := h
          subst hm
          exact ⟨rfl, rfl⟩
        · simp at h
      · simp at h
  all_goals simp [procReplacementVisit] at h

theorem procAppReplacementVisit_original (reps : List (String × List RNode))
    (n : RNode) (m : Mutation) (h : m ∈ procAppReplacementVisit reps n) :
    m.original = n ∧ isProcApp n = true := by
  cases n
  case procedureApplication lp rp es =>
    cases es with
    | nil => simp [procAppReplacementVisit] at h
    | cons procedure rest =>
      simp only [procAppReplacementVisit] at h
      split at h
      · split at h
        · rw [List.mem_map] at h
          obtain ⟨r, _, hm⟩ := h
          subst hm
          exact ⟨rfl, rfl⟩
        · simp at h
      · simp at h
  all_goals simp [procAppReplacementVisit] at h

theorem genVisit_original (g : GenConfig) (n : RNode) (m : Mutation)
    (h : m ∈ genVisit g n) : m.original = n ∧ isProcApp n = true := by
  cases g with
  | procReplacement reps => exact procReplacementVisit_original reps n m h
  | procAppReplacement reps => exact procAppReplacementVisit_original reps n m h

theorem gensOn_original (cfg : MutatorCfg) (n : RNode) (m : Mutation)
    (h : m ∈ gensOn cfg n) : m.original = n ∧ isProcApp n = true := by
  rw [gensOn, List.mem_flatMap] at h
  obtain ⟨g, _, hg⟩ := h
  exact genVisit_original g n m hg

/-! Decomposing a `Mutator.visit` run. -/

theorem mutatorVisitList_mem : ∀ (cfg : MutatorCfg) (l : NodeList)
    (m : Mutation), m ∈ mutatorVisitList cfg l →
      ∃ c ∈ l.toList, m ∈ mutatorVisit cfg c
  | cfg, .nil, m, h => by simp [mutatorVisitList] at h
  | cfg, .cons n rest, m, h => by
    rw [show mutatorVisitList cfg (.cons n rest) =
        mutatorVisit cfg n ++ mutatorVisitList cfg rest from rfl,
      List.mem_append] at h
    rcases h with h | h
    · exact ⟨n, List.mem_cons_self _ _, h⟩
    · obtain ⟨c, hc, hmc⟩ := mutatorVisitList_mem cfg rest m h
      exact ⟨c, List.mem_cons_of_mem _ hc, hmc⟩

theorem mutatorVisitPairs_mem : ∀ (cfg : MutatorCfg) (l : PairList)
    (m : Mutation), m ∈ mutatorVisitPairs cfg l →
      ∃ c ∈ l.toList.flatMap fun b => [b.1, b.2], m ∈ mutatorVisit cfg c
  | cfg, .nil, m, h => by simp [mutatorVisitPairs] at h
  | cfg, .cons a b rest, m, h => by
    rw [show mutatorVisitPairs cfg (.cons a b rest) =
        mutatorVisit cfg a ++ (mutatorVisit cfg b ++ mutatorVisitPairs cfg rest)
        from rfl,
      List.mem_append, List.mem_append] at h
    rcases h with h | h | h
    · exact ⟨a, List.mem_cons_self _ _, h⟩
    · exact ⟨b, List.mem_cons_of_mem _ (List.mem_cons_self _ _), h⟩
    · obtain ⟨c, hc, hmc⟩ := mutatorVisitPairs_mem cfg rest m h
      exact ⟨c, List.mem_cons_of_mem _ (List.mem_cons_of_mem _ hc), hmc⟩

theorem mchildList_not_tr (n : RNode) (h : isTestOrRequire n = false) :
    mchildList n = childList n := by
  rw [mchildList, if_neg (by simp [h])]

/-- Every mutation yielded by `Mutator.visit` comes either from a generator
run on the node itself, or from the recursive visit of one of the children
the dispatch enumerates (with possibly a different — name-specific —
mutator). -/
theorem mutatorVisit_cases (cfg : MutatorCfg) (p : RNode) (m : Mutation)
    (hm : m ∈ mutatorVisit cfg p) :
    m ∈ gensOn cfg p ∨
      ∃ cfg' c, c ∈ mchildList p ∧ m ∈ mutatorVisit cfg' c := by
  cases p with
  | program t rd stmts =>
    rw [show mutatorVisit cfg (.program t rd stmts) =
        gensOn cfg (.program t rd stmts) ++
          (mutatorVisit cfg rd ++ mutatorVisitList cfg stmts) from rfl,
      List.mem_append, List.mem_append] at hm
    rcases hm with h | h | h
    · exact Or.inl h
    · exact Or.inr ⟨cfg, rd, by
        exact List.mem_cons_self _ _, h⟩
    · obtain ⟨c, hc, hmc⟩ := mutatorVisitList_mem cfg stmts m h
      exact Or.inr ⟨cfg, c, by
        exact List.mem_cons_of_mem _ hc, hmc⟩
  | readerDirective t => exact Or.inl hm
  | nameDefinition lp rp nm e =>
    rw [show mutatorVisit cfg (.nameDefinition lp rp nm e) =
        gensOn cfg (.nameDefinition lp rp nm e) ++
          (mutatorVisit cfg nm ++ mutatorVisit (subMutatorFor cfg nm) e)
        from rfl,
      List.mem_append, List.mem_append] at hm
    rcases hm with h | h | h
    · exact Or.inl h
    · exact Or.inr ⟨cfg, nm, by
        exact List.mem_cons_self _ _, h⟩
    · exact Or.inr ⟨subMutatorFor cfg nm, e, by
        exact List.mem_cons_of_mem _ (List.mem_cons_self _ _), h⟩
  | structureDefinition lp rp nm fs =>
    rw [show mutatorVisit cfg (.structureDefinition lp rp nm fs) =
        gensOn cfg (.structureDefinition lp rp nm fs) ++
          (mutatorVisit cfg nm ++ mutatorVisitList cfg fs) from rfl,
      List.mem_append, List.mem_append] at hm
    rcases hm with h | h | h
    · exact Or.inl h
    · exact Or.inr ⟨cfg, nm, by
        exact List.mem_cons_self _ _, h⟩
    · obtain ⟨c, hc, hmc⟩ := mutatorVisitList_mem cfg fs m h
      exact Or.inr ⟨cfg, c, by
        exact List.mem_cons_of_mem _ hc, hmc⟩
  | literal t => exact Or.inl hm
  | name t => exact Or.inl hm
  | cond lp rp brs =>
    rw [show mutatorVisit cfg (.cond lp rp brs) =
        gensOn cfg (.cond lp rp brs) ++ mutatorVisitPairs cfg brs from rfl,
      List.mem_append] at hm
    rcases hm with h | h
    · exact Or.inl h
    · obtain ⟨c, hc, hmc⟩ := mutatorVisitPairs_mem cfg brs m h
      exact Or.inr ⟨cfg, c, by exact hc, hmc⟩
  | lambda lp rp vs e =>
    rw [show mutatorVisit cfg (.lambda lp rp vs e) =
        gensOn cfg (.lambda lp rp vs e) ++
          (mutatorVisitList cfg vs ++ mutatorVisit cfg e) from rfl,
      List.mem_append, List.mem_append] at hm
    rcases hm with h | h | h
    · exact Or.inl h
    · obtain ⟨c, hc, hmc⟩ := mutatorVisitList_mem cfg vs m h
      exact Or.inr ⟨cfg, c, by
        exact List.mem_append_left _ hc, hmc⟩
    · exact Or.inr ⟨cfg, e, by
        exact List.mem_append_right _ (List.mem_cons_self _ _), h⟩
  | letNode lp rp ty binds e =>
    rw [show mutatorVisit cfg (.letNode lp rp ty binds e) =
        gensOn cfg (.letNode lp rp ty binds e) ++
          (mutatorVisitPairs cfg binds ++ mutatorVisit cfg e) from rfl,
      List.mem_append, List.mem_append] at hm
    rcases hm with h | h | h
    · exact Or.inl h
    · obtain ⟨c, hc, hmc⟩ := mutatorVisitPairs_mem cfg binds m h
      exact Or.inr ⟨cfg, c, by
        exact List.mem_append_left _ hc, hmc⟩
    · exact Or.inr ⟨cfg, e, by
        exact List.mem_append_right _ (List.mem_cons_self _ _), h⟩
  | localNode lp rp ds e =>
    rw [show mutatorVisit cfg (.localNode lp rp ds e) =
        gensOn cfg (.localNode lp rp ds e) ++
          (mutatorVisitList cfg ds ++ mutatorVisit cfg e) from rfl,
      List.mem_append, List.mem_append] at hm
    rcases hm with h | h | h
    · exact Or.inl h
    · obtain ⟨c, hc, hmc⟩ := mutatorVisitList_mem cfg ds m h
      exact Or.inr ⟨cfg, c, by
        exact List.mem_append_left _ hc, hmc⟩
    · exact Or.inr ⟨cfg, e, by
        exact List.mem_append_right _ (List.mem_cons_self _ _), h⟩
  | procedureApplication lp rp es =>
    rw [show mutatorVisit cfg (.procedureApplication lp rp es) =
        gensOn cfg (.procedureApplication lp rp es) ++ mutatorVisitList cfg es
        from rfl,
      List.mem_append] at hm
    rcases hm with h | h
    · exact Or.inl h
    · obtain ⟨c, hc, hmc⟩ := mutatorVisitList_mem cfg es m h
      exact Or.inr ⟨cfg, c, by exact hc, hmc⟩
  | testCase lp rp ty es => exact Or.inl hm
  | libraryRequire lp rp lib => exact Or.inl hm

theorem mutatorVisit_originals_aux : ∀ (sz : Nat) (cfg : MutatorCfg)
    (p : RNode), sizeOf p ≤ sz → ∀ m ∈ mutatorVisit cfg p,
      ∃ k, k ∈ RNode.mvisited p ∧ m.original = k ∧ isProcApp k = true := by
  intro sz
  induction sz with
  | zero => intro cfg p hp; have := RNode.sizeOf_pos p; omega
  | succ sz ih =>
    intro cfg p hp m hm
    rcases mutatorVisit_cases cfg p m hm with h | ⟨cfg', c, hc, hmc⟩
    · obtain ⟨hop, hpa⟩ := gensOn_original cfg p m h
      refine ⟨p, ?_, hop, hpa⟩
      rw [mvisited_eq]
      exact List.mem_cons_self _ _
    · have hlt := sizeOf_childList p c (mchild_sub p c hc)
      obtain ⟨k, hk, ho, hpa⟩ := ih cfg' c (by omega) m hmc
      refine ⟨k, ?_, ho, hpa⟩
      rw [mvisited_eq]
      exact List.mem_cons_of_mem _ (List.mem_flatMap.mpr ⟨c, hc, hk⟩)

/-- Every mutation the mutator yields has as `original` one of the nodes the
mutator actually visits, and that node is a procedure application. -/
theorem mutatorVisit_originals (cfg : MutatorCfg) (p : RNode) (m : Mutation)
    (hm : m ∈ mutatorVisit cfg p) :
    ∃ k, k ∈ RNode.mvisited p ∧ m.original = k ∧ isProcApp k = true :=
  mutatorVisit_originals_aux (sizeOf p) cfg p le_rfl m hm

/-- Claim C9: for every generator configuration and every program whose
reachable nodes are pairwise distinct (so that structural equality coincides
with Python object identity), the `Mutator` yields no mutation whose
`original` lies at or inside a test-case or library-require node:
`visit_test_case_node` and `visit_library_require_node` (mutator.py lines
101-109) yield nothing and do not recurse, and the concrete generators only
target nodes the mutator actually visits. -/
theorem C9_mutator_never_mutates_tests_or_requires
    (cfg : MutatorCfg) (p : RNode) (hnd : (RNode.nodes p).Nodup) :
    ∀ m ∈ generate_mutations cfg p, ∀ t ∈ RNode.nodes p,
      isTestOrRequire t = true → m.original ∉ RNode.nodes t := by
  intro m hm t ht hTR hmem
  obtain ⟨k, hk, ho, hpa⟩ := mutatorVisit_originals cfg p m hm
  rw [ho] at hmem
  have hkt := mvisited_outside_tests p hnd t ht hTR k hk hmem
  subst hkt
  cases k <;> simp [isProcApp, isTestOrRequire] at hpa hTR

def c9Source : String :=
  "#lang racket\n(define y (+ 1 2))\n(check-expect (f 1) (+ 1 2))"

def c9Prog : RNode :=
  match parseSource c9Source with
  | .ok p => p
  | .error _ => .literal EOF_TOKEN

def c9Cfg : MutatorCfg := .mk [.procReplacement [("+", ["-"])]] []

/-- A duplicate-free list of per-node keys forces the node list itself to be
duplicate-free; the key (Python class name, primary token offset) is cheap to
compare. -/
theorem nodes_nodup_of_key (p : RNode)
    (h : ((RNode.nodes p).map fun n => (pyClassName n, n.token.offset)).Nodup) :
    (RNode.nodes p).Nodup :=
  List.Nodup.of_map _ h

set_option maxHeartbeats 1000000 in
/-- Witness for C9 at a concrete parsed program containing a `check-expect`
test case, with a generator configuration that does fire (on the `(+ 1 2)`
inside the definition of `y`). -/
theorem C9_mutator_never_mutates_tests_or_requires_witness :
    (RNode.nodes c9Prog).Nodup ∧
    (∀ m ∈ generate_mutations c9Cfg c9Prog, ∀ t ∈ RNode.nodes c9Prog,
      isTestOrRequire t = true → m.original ∉ RNode.nodes t) :=
  have hnd : (RNode.nodes c9Prog).Nodup :=
    nodes_nodup_of_key c9Prog (by decide)
  ⟨hnd, C9_mutator_never_mutates_tests_or_requires c9Cfg c9Prog hnd⟩

def c4Cfg : MutatorCfg := .mk [.procReplacement [("+", ["-"])]] []

def c4Source : String := "#lang racket\n(+ 1)"

/-- Claim C4 (code bug): for `(+ 1)` under the mapping {+ → {-}}, the single
yielded mutation's `original` is the WHOLE application node — its token is
`(` at offset 13 — and its `replacement` is a rebuilt application `(- 1)`,
NOT the head `Name` node (`+`, offset 14) and a replacement `Name` carrying
`-`, as the claim and the repository's own mutator_test.py (which asserts
`mutation.original.token.source == "+"` at offset 14) require:
procedure_replacement.py line 39 passes `original=node`. -/
theorem C4_original_is_whole_application :
    (parseSource c4Source).map (fun prog =>
      (generate_mutations c4Cfg prog).map fun m =>
        (m.original.token.source, m.original.token.offset,
         isProcApp m.original, isProcApp m.replacement,
         stringifyNode parAddr m.replacement)) =
      .ok [("(", 13, true, true, "(- 1)")] := by decide

def c3Cfg : MutatorCfg := .mk [.procReplacement [("f", ["g"])]] []

def c3Source : String := "#lang racket\n(cond ((f 1) 2))"

/-- Claim C3 (code bug): the mutator produces exactly one mutation for this
program — its `original` is `(f 1)`, sitting in a cond-condition slot and
reachable from the root — yet `apply_mutations` yields ZERO mutants, because
`visit_cond_node` (applier.py lines 97-109) replaces the slot without ever
yielding (and likewise the lambda-variable loop, lines 111-125, the
let-binding loops, lines 127-148, and the local-definition loop); the claim
demands one yielded mutant per reachable original. -/
theorem C3_cond_slot_mutant_never_yielded :
    (parseSource c3Source).map (fun prog =>
      ((generate_mutations c3Cfg prog).length,
       ((generate_mutations c3Cfg prog).filter fun m =>
          decide (m.original ∈ RNode.nodes prog)).length,
       (apply_mutations prog (generate_mutations c3Cfg prog)).length)) =
      .ok (1, 1, 0) := by decide

/-! ## The runner (runner/result.py, runner/__init__.py) -/

/-- `TestFailure` (result.py lines 170-177). -/
structure TestFailure where
  actual : String
  expected : String
  lineno : Int
  colno : Int
  deriving DecidableEq, Repr

/-- `MutantExecutionResult` (result.py lines 160-167): the fields
`RunnerSuccess._evaluate_mutants` reads — `stderr` and the `failures` parsed
from stdout by `ProgramExecutionResult.__init__` — plus the `returncode` the
claim mentions (which `_evaluate_mutants` never consults). -/
structure MutantExecutionResult where
  failures : List TestFailure
  stderr : String
  returncode : Int
  deriving DecidableEq, Repr

/-- The loop of `RunnerSuccess._evaluate_mutants` (result.py lines 99-107):
`if result.stderr: execution_error += 1 elif len(result.failures) > 0:
killed += 1` (Python string truthiness: non-empty). -/
def evaluateMutantsLoop : List MutantExecutionResult → Nat × Nat → Nat × Nat
  | [], acc => acc
  | r :: rest, (killed, execError) =>
    if r.stderr ≠ "" then evaluateMutantsLoop rest (killed, execError + 1)
    else if r.failures.length > 0 then
      evaluateMutantsLoop rest (killed + 1, execError)
    else evaluateMutantsLoop rest (killed, execError)

/-- `RunnerSuccess._evaluate_mutants` (result.py lines 95-112), returning
`(self._total, self._killed, self._execution_error)`; `i` starts at `-1` and
ends at the last index, so `_total = i + 1` is the number of results. -/
def evaluate_mutants (results : List MutantExecutionResult) :
    Nat × Nat × Nat :=
  let (killed, execError) := evaluateMutantsLoop results (0, 0)
  (results.length, killed, execError)

def c7Result : MutantExecutionResult :=
  { failures := [], stderr := "", returncode := 1 }

/-- Claim C7 counterexample: a mutant result with empty stderr, no reported
test failures, and returncode 1 is counted as SURVIVED
(total 1, killed 0, execution_error 0) — `_evaluate_mutants` never looks at
the returncode — where the claim requires it to count as an execution
error. -/
theorem C7_counterexample_returncode_ignored :
    evaluate_mutants [c7Result] = (1, 0, 0) ∧ c7Result.returncode ≠ 0 := by
  constructor
  · rfl
  · decide

theorem evaluateMutantsLoop_spec :
    ∀ (l : List MutantExecutionResult) (k e : Nat),
      evaluateMutantsLoop l (k, e) =
        (k + (l.filter fun r =>
            decide (r.stderr = "") && decide (r.failures ≠ [])).length,
         e + (l.filter fun r => decide (r.stderr ≠ "")).length) := by
  intro l
  induction l with
  | nil => intro k e; simp [evaluateMutantsLoop]
  | cons r rest ih =>
    intro k e
    by_cases hs : r.stderr = ""
    · by_cases hf : r.failures = []
      · simp [evaluateMutantsLoop, hs, hf, ih]
      · have : r.failures.length > 0 := by
          cases hfl : r.failures with
          | nil => exact absurd hfl hf
          | cons a rest2 => simp
        simp [evaluateMutantsLoop, hs, hf, this, ih]
        omega
    · simp [evaluateMutantsLoop, hs, ih]
      omega

/-- Claim C7, amended: during aggregation a mutant is counted as killed iff
its stderr is empty AND its stdout test report contains at least one failure;
as an execution error iff its stderr is non-empty; and as survived otherwise
— the returncode plays no role whatsoever (and `_total` is the number of
consumed results). -/
theorem C7_amended_classification (results : List MutantExecutionResult) :
    evaluate_mutants results =
      (results.length,
       (results.filter fun r =>
          decide (r.stderr = "") && decide (r.failures ≠ [])).length,
       (results.filter fun r => decide (r.stderr ≠ "")).length) := by
  rw [evaluate_mutants, evaluateMutantsLoop_spec]
  simp

/-- The members of `RunnerFailure.Reason` (result.py lines 34-43) with their
values.  There are exactly seven; none is named `TIMEOUT`. -/
inductive Reason where
  | READER_ERROR
  | NOT_DRRACKETY
  | NOT_WELL_FORMED_PROGRAM
  | NON_ZERO_MUTANT_RETURNCODE
  | NON_ZERO_UNMODIFIED_RETURNCODE
  | UNKNOWN_ERROR
  | UNMODIFIED_TEST_FAILURE
  deriving DecidableEq, Repr

def Reason.value : Reason → String
  | .READER_ERROR => "Reader unable to read program"
  | .NOT_DRRACKETY => "Program missing DrRacket prefix"
  | .NOT_WELL_FORMED_PROGRAM => "Program not well-formed"
  | .NON_ZERO_MUTANT_RETURNCODE => "Non-zero returncode when running mutant"
  | .NON_ZERO_UNMODIFIED_RETURNCODE =>
    "Non-zero returncode when running unmodified source"
  | .UNKNOWN_ERROR => "Unknown error"
  | .UNMODIFIED_TEST_FAILURE => "Test failure when running unmodified source"

/-- Python attribute access `result.RunnerFailure.Reason.<attr>`: `some`
member when the name is defined, `none` — an `AttributeError` — otherwise. -/
def reasonAttr : String → Option Reason
  | "READER_ERROR" => some .READER_ERROR
  | "NOT_DRRACKETY" => some .NOT_DRRACKETY
  | "NOT_WELL_FORMED_PROGRAM" => some .NOT_WELL_FORMED_PROGRAM
  | "NON_ZERO_MUTANT_RETURNCODE" => some .NON_ZERO_MUTANT_RETURNCODE
  | "NON_ZERO_UNMODIFIED_RETURNCODE" => some .NON_ZERO_UNMODIFIED_RETURNCODE
  | "UNKNOWN_ERROR" => some .UNKNOWN_ERROR
  | "UNMODIFIED_TEST_FAILURE" => some .UNMODIFIED_TEST_FAILURE
  | _ => none

/-- A Python exception raised inside the mutant-polling loop of
`Runner.run_mutants`. -/
inductive PyExc where
  | runnerFailure (reason : Reason)
  | attributeError (attr : String)
  deriving DecidableEq, Repr

/-- `TemporaryRacketProgram.TIMEOUT` (runner/__init__.py line 208). -/
def TIMEOUT : Nat := 10

/-- `TemporaryRacketProgram.finished` (runner/__init__.py lines 224-228):
when the elapsed wall-clock time exceeds `TIMEOUT` it evaluates
`result.RunnerFailure.Reason.TIMEOUT` in order to raise a `RunnerFailure` —
but `Reason` defines no member `TIMEOUT`, so the attribute access itself
raises `AttributeError` before any `RunnerFailure` is constructed; otherwise
it reports whether the subprocess has exited. -/
def finished (elapsed : Nat) (processExited : Bool) : Except PyExc Bool :=
  if elapsed > TIMEOUT then
    match reasonAttr "TIMEOUT" with
    | some r => .error (.runnerFailure r)
    | none => .error (.attributeError "TIMEOUT")
  else
    .ok processExited

/-- What one pass of the polling loop does with one running program. -/
inductive PollOutcome where
  | yielded (stderr : String)
  | stillRunning
  | aborted (exc : PyExc)
  deriving DecidableEq, Repr

/-- One iteration of the per-program body of the mutant-polling loop
(runner/__init__.py lines 154-173, duplicated at 182-201): poll
`program.finished`; when it returns True, yield a `MutantOutput` carrying the
process stderr; when it raises a `RunnerFailure e`, yield a `MutantOutput`
whose stderr is `e.reason.value`; any OTHER exception — in particular the
`AttributeError` from the missing `TIMEOUT` member — is not caught there and
aborts the whole generator. -/
def pollProgram (elapsed : Nat) (processExited : Bool)
    (processStderr : String) : PollOutcome :=
  match finished elapsed processExited with
  | .ok true => .yielded processStderr
  | .ok false => .stillRunning
  | .error (.runnerFailure e) => .yielded (Reason.value e)
  | .error exc => .aborted exc

/-- Claim C8 (code bug): when a mutant's wall-clock time exceeds the
10-second budget, the polling loop does NOT emit a `MutantOutput` with
stderr `"timeout"` and carry on — `Reason` has no `TIMEOUT` member
(result.py lines 34-43), so `TemporaryRacketProgram.finished` raises
`AttributeError`, which the `except result.RunnerFailure` handler does not
catch: the whole mutant run aborts.  (Indeed no `Reason` value even renders
as `"timeout"`.) -/
theorem C8_timeout_aborts_run :
    reasonAttr "TIMEOUT" = none ∧
    (∀ exited : Bool, ∀ stderrStr : String,
      pollProgram 11 exited stderrStr = .aborted (.attributeError "TIMEOUT")) ∧
    (∀ r : Reason, Reason.value r ≠ "timeout") := by
  refine ⟨rfl, fun exited stderrStr => rfl, fun r => ?_⟩
  cases r <;> simp [Reason.value]

/-- A Python exception escaping one step of `Runner.run`'s try block: a
`result.RunnerFailure`, or any other `BaseException` rendered by `str`. -/
inductive RunExc where
  | runnerFailure (reason : Reason) (cause : Option String)
  | other (msg : String)
  deriving DecidableEq, Repr

/-- The outcomes of the world-touching steps executed by the try block of
`Runner.run` (runner/__init__.py lines 36-44), in order:
`check_file_exists`, the `open`/`read` of the file, `run_unmodified`, and
`build_syntax_tree`.  (`generate_mutations` then computes the mutation list
and `apply_mutations`/`run_mutants` merely build lazy generators, raising
nothing inside `run`.) -/
structure RunEnv where
  check_file_exists : Except RunExc Unit
  readSource : Except RunExc String
  run_unmodified : String → Except RunExc Unit
  build_syntax_tree : String → Except RunExc RNode

/-- The try block of `Runner.run` (lines 36-44), returning the mutation list
stored in the `RunnerSuccess`. -/
def runBody (cfg : MutatorCfg) (env : RunEnv) : Except RunExc (List Mutation) := do
  env.check_file_exists
  let source ← env.readSource
  env.run_unmodified source
  let program ← env.build_syntax_tree source
  pure (generate_mutations cfg program)

/-- `self.result` after `Runner.run` returns. -/
inductive RunnerResultModel where
  | success (filepath : String) (mutations : List Mutation)
  | failure (filepath : String) (reason : Reason) (cause : Option String)
  deriving DecidableEq, Repr

/-- `Runner.run` (runner/__init__.py lines 33-50): on success `self.result`
is the `RunnerSuccess`; a raised `RunnerFailure` gets `e.filepath =
self.filepath` and becomes `self.result`; any other exception is replaced by
`RunnerFailure(reason=UNKNOWN_ERROR, cause=str(e))` — whose `filepath` stays
`""` because `run` never sets it on this fresh object. -/
def Runner.run (filepath : String) (cfg : MutatorCfg) (env : RunEnv) :
    RunnerResultModel :=
  match runBody cfg env with
  | .ok mutations => .success filepath mutations
  | .error (.runnerFailure r c) => .failure filepath r c
  | .error (.other msg) => .failure "" .UNKNOWN_ERROR (some msg)

/-- Claim C10: `Runner.run` is total — whatever the try block does,
`self.result` ends up a `RunnerSuccess` or a `RunnerFailure` and no exception
propagates (the model's totality mirrors the `except BaseException` arm);
raised `RunnerFailure`s are kept (with the runner's filepath), and any other
exception is converted to a `RunnerFailure` with reason `UNKNOWN_ERROR` and
the stringified exception as cause. -/
theorem C10_run_always_sets_result (filepath : String) (cfg : MutatorCfg)
    (env : RunEnv) :
    ((∃ muts, Runner.run filepath cfg env = .success filepath muts) ∨
      (∃ fp r c, Runner.run filepath cfg env = .failure fp r c)) ∧
    (∀ r c, runBody cfg env = .error (.runnerFailure r c) →
      Runner.run filepath cfg env = .failure filepath r c) ∧
    (∀ msg, runBody cfg env = .error (.other msg) →
      Runner.run filepath cfg env = .failure "" .UNKNOWN_ERROR (some msg)) := by
  refine ⟨?_, ?_, ?_⟩
  · rcases h : runBody cfg env with e | muts
    · cases e with
      | runnerFailure r c =>
        exact Or.inr ⟨filepath, r, c, by rw [Runner.run, h]⟩
      | other msg =>
        exact Or.inr ⟨"", .UNKNOWN_ERROR, some msg, by rw [Runner.run, h]⟩
    · exact Or.inl ⟨muts, by rw [Runner.run, h]⟩
  · intro r c h
    rw [Runner.run, h]
  · intro msg h
    rw [Runner.run, h]

def c10Env : RunEnv :=
  { check_file_exists := .ok ()
    readSource := .ok "#lang racket\n(+ 1 2)"
    run_unmodified := fun _ => .ok ()
    build_syntax_tree := fun _ => .error (.other "division by zero") }

/-- Witness for C10: a run whose `build_syntax_tree` step raises a
non-`RunnerFailure` exception ends with an `UNKNOWN_ERROR` failure carrying
the stringified exception. -/
theorem C10_run_always_sets_result_witness :
    Runner.run "program.rkt" (.mk [] []) c10Env =
      .failure "" .UNKNOWN_ERROR (some "division by zero") :=
  (C10_run_always_sets_result "program.rkt" (.mk [] []) c10Env).2.2
    "division by zero" rfl

end Mracket

